import Mathlib

/-!
Shallow embedding of the validation scripts of the `gravitee-api-testing`
repository, together with proofs of the specification claims about them.

The embedding models Python's dynamically typed YAML/JSON trees as an
inductive type, Python truthiness explicitly, and each validator as a
state-passing function that returns the accumulated findings together with
a completion flag (`false` models an uncaught Python exception, which
keeps the findings recorded so far and aborts the rest of the run).
-/

/-- A YAML value as produced by `yaml.safe_load`.  Floating point scalars do
not occur in any of the checks these scripts perform on YAML input, so the
numeric case carries an integer. -/
inductive Yaml where
  | null
  | bool (b : Bool)
  | int (n : Int)
  | str (s : String)
  | list (xs : List Yaml)
  | map (kvs : List (String × Yaml))

/-- First-match association lookup, the embedding of a Python `dict` access
(the decoded documents used by the claims have distinct keys). -/
def lookupKV : List (String × Yaml) → String → Option Yaml
  | [], _ => none
  | (k, v) :: rest, key => if k == key then some v else lookupKV rest key

/-- Python truthiness of a YAML value (`bool(x)`). -/
def Yaml.truthy : Yaml → Bool
  | .null => false
  | .bool b => b
  | .int n => n != 0
  | .str s => !(s.isEmpty)
  | .list xs => !xs.isEmpty
  | .map kvs => !kvs.isEmpty

/-- Whether a YAML value is a mapping (`isinstance(x, dict)`). -/
def Yaml.isMap : Yaml → Bool
  | .map _ => true
  | _ => false

/-- Python `x == "lit"` for a string literal: true exactly when the value is
that string (no other YAML value compares equal to a `str`). -/
def yEqStr (v : Yaml) (s : String) : Bool :=
  match v with
  | .str t => t == s
  | _ => false

mutual
/-- Python `repr` of a YAML value (best effort: ASCII scalars and nested
containers as CPython prints them; it is only used to render values inside
finding messages). -/
def pyRepr : Yaml → String
  | .null => "None"
  | .bool true => "True"
  | .bool false => "False"
  | .int n => toString n
  | .str s => "'" ++ s ++ "'"
  | .list xs => "[" ++ pyReprItems xs ++ "]"
  | .map kvs => "\x7b" ++ pyReprPairs kvs ++ "\x7d"

def pyReprItems : List Yaml → String
  | [] => ""
  | [x] => pyRepr x
  | x :: y :: rest => pyRepr x ++ ", " ++ pyReprItems (y :: rest)

def pyReprPairs : List (String × Yaml) → String
  | [] => ""
  | [kv] => "'" ++ kv.1 ++ "': " ++ pyRepr kv.2
  | kv :: kv2 :: rest => "'" ++ kv.1 ++ "': " ++ pyRepr kv.2 ++ ", " ++ pyReprPairs (kv2 :: rest)
end

/-- Python `str(x)` as used by f-string interpolation. -/
def pyStr : Yaml → String
  | .str s => s
  | v => pyRepr v

/-- `s.startswith(p)` over the character lists of the model strings
(kernel-computable, unlike `String.startsWith`). -/
def strStartsWith (s p : String) : Bool :=
  p.data.isPrefixOf s.data

/-- Splitting a character list at `.`, accumulator-style: the embedding of
Python's `path.split('.')`. -/
def splitDot : List Char → List Char → List String
  | [], acc => [String.mk acc.reverse]
  | c :: rest, acc =>
    if c == '.' then String.mk acc.reverse :: splitDot rest []
    else splitDot rest (c :: acc)

/-- `path.split('.')`. -/
def strSplitDot (s : String) : List String :=
  splitDot s.data []

/-- Drop one trailing newline if present (Python's `$` in `re.match` also
matches just before a final newline). -/
def stripOneNL (cs : List Char) : List Char :=
  if cs.getLast? = some (Char.ofNat 10) then cs.dropLast else cs

/-- `d.get(k, dflt)` on a value that may not be a dict; `Except.error`
models the `AttributeError` Python raises on a non-dict. -/
def pyGetDE (d : Yaml) (k : String) (dflt : Yaml) : Except Unit Yaml :=
  match d with
  | .map kvs => .ok ((lookupKV kvs k).getD dflt)
  | _ => .error ()

/-- Python iteration `for x in v`: lists yield elements, strings yield
one-character strings, dicts yield their keys, everything else raises. -/
def pyIterE (v : Yaml) : Except Unit (List Yaml) :=
  match v with
  | .list xs => .ok xs
  | .str s => .ok (s.data.map fun c => .str (String.singleton c))
  | .map kvs => .ok (kvs.map fun kv => .str kv.1)
  | _ => .error ()

/-- `a + b` followed by iteration over the result (list/list concatenation
or string/string concatenation; any other combination raises `TypeError`). -/
def pyAddIterE (a b : Yaml) : Except Unit (List Yaml) :=
  match a, b with
  | .list xs, .list ys => .ok (xs ++ ys)
  | .str s, .str t => .ok ((s ++ t).data.map fun c => .str (String.singleton c))
  | _, _ => .error ()

/-- Python numeric coercion for an order comparison against an `int`
literal: ints compare directly, `bool` is an `int` subtype, anything else
raises `TypeError`. -/
def pyNumE : Yaml → Except Unit Int
  | .int n => .ok n
  | .bool b => .ok (if b then 1 else 0)
  | _ => .error ()

/-- State of a run plus a completion flag: `(r, false)` records findings
accumulated up to an uncaught exception. -/
def pseq {σ : Type} (r : σ × Bool) (f : σ → σ × Bool) : σ × Bool :=
  if r.2 then f r.1 else r

namespace GKO

/-- Findings of `validate-gko-crds.py`: the `errors` and `warnings` lists. -/
abbrev St := List String × List String

def REQUIRED_API_DEFINITION_FIELDS : List String :=
  ["spec.name", "spec.version", "spec.contextRef", "spec.proxy.virtualHosts", "spec.proxy.groups"]

def REQUIRED_API_PLAN_FIELDS : List String :=
  ["spec.name", "spec.apiRef", "spec.contextRef", "spec.security", "spec.status"]

def VALID_SECURITY_TYPES : List String := ["API_KEY", "JWT", "OAUTH2", "KEY_LESS", "MTLS"]
def VALID_LIFECYCLE_STATES : List String := ["CREATED", "PUBLISHED", "UNPUBLISHED", "DEPRECATED"]
def VALID_PLAN_STATUSES : List String := ["STAGING", "PUBLISHED", "DEPRECATED", "CLOSED"]

/-- `_get_nested_value` descent over already-split keys: descend through
nested maps, treating an absent key or a non-map intermediate as `None`. -/
def getNestedKeys : Yaml → List String → Yaml
  | d, [] => d
  | .map kvs, k :: rest => getNestedKeys ((lookupKV kvs k).getD .null) rest
  | _, _ :: _ => .null

/-- `_get_nested_value(d, path)` of `validate-gko-crds.py`. -/
def _get_nested_value (d : Yaml) (path : String) : Yaml :=
  getNestedKeys d (strSplitDot path)

/-- `f"[{name}] {rest}"`. -/
def bracket (name rest : String) : String :=
  "[" ++ name ++ "] " ++ rest

def reqMsg (name p : String) : String := bracket name ("Missing required field: " ++ p)
def verMsg (name v : String) : String :=
  bracket name ("Version '" ++ v ++ "' doesn't follow semver format")
def lcMsg (name : String) (v : Yaml) : String := bracket name ("Invalid lifecycleState: " ++ pyStr v)
def vhMsg (name path : String) : String :=
  bracket name ("Virtual host path must start with '/': " ++ path)
def egMsg (name gname : String) : String :=
  bracket name ("Endpoint group '" ++ gname ++ "' has no endpoints")
def etMissingMsg (name : String) : String := bracket name "Endpoint missing target URL"
def etAbsMsg (name target : String) : String :=
  bracket name ("Endpoint target should be absolute URL: " ++ target)
def payloadMsg (name : String) : String :=
  bracket name "Payload logging enabled - consider performance impact"
def secMsg (name : String) (v : Yaml) : String := bracket name ("Invalid security type: " ++ pyStr v)
def statusMsg (name : String) (v : Yaml) : String := bracket name ("Invalid plan status: " ++ pyStr v)
def rlMsg (name : String) : String := bracket name "Plan has no rate limiting or quota policy"
def mcBaseMsg (name : String) : String := bracket name "Missing required field: spec.baseUrl"
def mcAuthMsg (name : String) : String := bracket name "Missing auth.secretRef configuration"
def flowPathMsg (name fname : String) : String :=
  bracket name ("Flow '" ++ fname ++ "' has no path defined")
def polTypeMsg (name pname fname : String) : String :=
  bracket name ("Policy '" ++ pname ++ "' in flow '" ++ fname ++ "' missing policy type")
def polCfgMsg (name pname : String) : String :=
  bracket name ("Policy '" ++ pname ++ "' has no configuration")
def yamlErrMsg (fp e : String) : String :=
  "YAML parsing error in " ++ fp ++ ": " ++ e

/-- The first code points of the 66 ten-character runs that make up the
Unicode category Nd (decimal digits) in Unicode 14.0, the data CPython's
`re` module uses for `\d` on `str` patterns. -/
def ndRangeStarts : List Nat :=
  [48, 1632, 1776, 1984, 2406, 2534, 2662, 2790, 2918, 3046, 3174, 3302,
   3430, 3558, 3664, 3792, 3872, 4160, 4240, 6112, 6160, 6470, 6608, 6784,
   6800, 6992, 7088, 7232, 7248, 42528, 43216, 43264, 43472, 43504, 43600,
   44016, 65296, 66720, 68912, 69734, 69872, 69942, 70096, 70384, 70736,
   70864, 71248, 71360, 71472, 71904, 72016, 72784, 73040, 73120, 92768,
   92864, 93008, 120782, 120792, 120802, 120812, 120822, 123200, 123632,
   125264, 130032]

/-- Python's `\d` on a `str` pattern: any Unicode decimal digit
(category Nd), not just ASCII `0-9`. -/
def isUnicodeDigit (c : Char) : Bool :=
  ndRangeStarts.any fun s => decide (s ≤ c.toNat) && decide (c.toNat ≤ s + 9)

/-- `re.match(r'^\d+\.\d+\.\d+$', s)` as a Boolean: three nonempty runs of
Unicode decimal digits separated by dots, with Python's `$` also accepting
one trailing newline. -/
def semverMatch (s : String) : Bool :=
  let parts := splitDot (stripOneNL s.data) []
  parts.length == 3 && parts.all fun p => !p.isEmpty && p.data.all isUnicodeDigit

/-- The required-field loop of `_validate_api_definition` / `_validate_api_plan`. -/
def adRequired (doc : Yaml) (name : String) : List String → St → St × Bool
  | [], st => (st, true)
  | p :: rest, st =>
    if (_get_nested_value doc p).truthy then adRequired doc name rest st
    else adRequired doc name rest (st.1 ++ [reqMsg name p], st.2)

/-- The `virtual_hosts` loop of `_validate_api_definition`. -/
def adVirtualHosts (name : String) : List Yaml → St → St × Bool
  | [], st => (st, true)
  | vh :: rest, st =>
    match pyGetDE vh "path" (.str "") with
    | .error _ => (st, false)
    | .ok pathv =>
      match pathv with
      | .str path =>
        if strStartsWith path "/" then adVirtualHosts name rest st
        else adVirtualHosts name rest (st.1 ++ [vhMsg name path], st.2)
      | _ => (st, false)

/-- The `endpoints` loop inside the groups loop of `_validate_api_definition`. -/
def adEndpoints (name : String) : List Yaml → St → St × Bool
  | [], st => (st, true)
  | e :: rest, st =>
    match pyGetDE e "target" (.str "") with
    | .error _ => (st, false)
    | .ok t =>
      if !t.truthy then adEndpoints name rest (st.1 ++ [etMissingMsg name], st.2)
      else
        match t with
        | .str s =>
          if strStartsWith s "http://" || strStartsWith s "https://" then adEndpoints name rest st
          else adEndpoints name rest (st.1, st.2 ++ [etAbsMsg name s])
        | _ => (st, false)

/-- The `groups` loop of `_validate_api_definition`. -/
def adGroups (name : String) : List Yaml → St → St × Bool
  | [], st => (st, true)
  | g :: rest, st =>
    match g with
    | .map gk =>
      let eps := (lookupKV gk "endpoints").getD (.list [])
      let st1 : St :=
        if eps.truthy then st
        else (st.1, st.2 ++ [egMsg name (pyStr ((lookupKV gk "name").getD (.str "unknown")))])
      match pyIterE eps with
      | .error _ => (st1, false)
      | .ok el => pseq (adEndpoints name el st1) (adGroups name rest)
    | _ => (st, false)

/-- `_validate_policy`. -/
def _validate_policy (apiName fname : String) (policy : Yaml) (st : St) : St × Bool :=
  match policy with
  | .map pk =>
    let pname := pyStr ((lookupKV pk "name").getD (.str "unnamed"))
    let ptype := (lookupKV pk "policy").getD (.str "")
    let st1 : St := if ptype.truthy then st else (st.1 ++ [polTypeMsg apiName pname fname], st.2)
    let cfg := (lookupKV pk "configuration").getD .null
    let st2 : St := if cfg.truthy then st1 else (st1.1, st1.2 ++ [polCfgMsg apiName pname])
    (st2, true)
  | _ => (st, false)

/-- The policies loop of `_validate_flow`. -/
def adPolicies (apiName fname : String) : List Yaml → St → St × Bool
  | [], st => (st, true)
  | p :: rest, st => pseq (_validate_policy apiName fname p st) (adPolicies apiName fname rest)

/-- `_validate_flow`. -/
def _validate_flow (apiName : String) (flow : Yaml) (st : St) : St × Bool :=
  match flow with
  | .map fk =>
    let fname := pyStr ((lookupKV fk "name").getD (.str "unnamed"))
    let po := (lookupKV fk "pathOperator").getD (.map [])
    match pyGetDE po "path" (.str "") with
    | .error _ => (st, false)
    | .ok pathv =>
      let st1 : St := if pathv.truthy then st else (st.1, st.2 ++ [flowPathMsg apiName fname])
      match pyAddIterE ((lookupKV fk "pre").getD (.list [])) ((lookupKV fk "post").getD (.list [])) with
      | .error _ => (st1, false)
      | .ok ps => adPolicies apiName fname ps st1
  | _ => (st, false)

/-- The flows loop of `_validate_api_definition`. -/
def adFlowList (name : String) : List Yaml → St → St × Bool
  | [], st => (st, true)
  | f :: rest, st => pseq (_validate_flow name f st) (adFlowList name rest)

/-- The analytics block of `_validate_api_definition` (`sk` is the entries of `spec`). -/
def adAnalytics (sk : List (String × Yaml)) (name : String) (st : St) : St × Bool :=
  match (lookupKV sk "analytics").getD (.map []) with
  | .map ak =>
    if ((lookupKV ak "enabled").getD (.bool false)).truthy then
      match (lookupKV ak "logging").getD (.map []) with
      | .map lk =>
        if yEqStr ((lookupKV lk "content").getD .null) "PAYLOADS" then
          ((st.1, st.2 ++ [payloadMsg name]), true)
        else (st, true)
      | _ => (st, false)
    else (st, true)
  | _ => (st, false)

/-- The version-format check of `_validate_api_definition`
(`version = spec.get('version', '')`, warn when truthy and not semver). -/
def adVersionStep (sk : List (String × Yaml)) (name : String) (st : St) : St × Bool :=
  match (lookupKV sk "version").getD (.str "") with
  | .str s =>
    if s.isEmpty then (st, true)
    else if semverMatch s then (st, true)
    else ((st.1, st.2 ++ [verMsg name s]), true)
  | v => if v.truthy then (st, false) else (st, true)

/-- The flows loop plus the analytics block of `_validate_api_definition`. -/
def adDefFlowsPhase (sk : List (String × Yaml)) (name : String) (st5 : St) : St × Bool :=
  match pyIterE ((lookupKV sk "flows").getD (.list [])) with
  | .error _ => (st5, false)
  | .ok fl =>
    pseq (adFlowList name fl st5) fun st6 =>
    adAnalytics sk name st6

/-- The endpoint-groups loop of `_validate_api_definition` followed by the
rest of the checks (`pk` is the entries of `proxy`). -/
def adDefGroupsPhase (pk sk : List (String × Yaml)) (name : String) (st4 : St) : St × Bool :=
  match pyIterE ((lookupKV pk "groups").getD (.list [])) with
  | .error _ => (st4, false)
  | .ok gl =>
    pseq (adGroups name gl st4) fun st5 =>
    adDefFlowsPhase sk name st5

/-- `_validate_api_definition` after its required-field loop and version
check (`sk` is the entries of `spec`; reaching this point requires `spec`
to be a dict): lifecycle state, proxy checks, flows, analytics. -/
def adDefRest2 (sk : List (String × Yaml)) (name : String) (st : St) : St × Bool :=
  let lc := (lookupKV sk "lifecycleState").getD .null
  let st3 : St :=
    if lc.truthy && !(VALID_LIFECYCLE_STATES.any (yEqStr lc)) then (st.1 ++ [lcMsg name lc], st.2)
    else st
  match (lookupKV sk "proxy").getD (.map []) with
  | .map pk =>
    match pyIterE ((lookupKV pk "virtualHosts").getD (.list [])) with
    | .error _ => (st3, false)
    | .ok vhl =>
      pseq (adVirtualHosts name vhl st3) fun st4 =>
      adDefGroupsPhase pk sk name st4
  | _ => (st3, false)

/-- `_validate_api_definition`. -/
def _validate_api_definition (doc : Yaml) (name : String) (st : St) : St × Bool :=
  match doc with
  | .map dk =>
    pseq (adRequired doc name REQUIRED_API_DEFINITION_FIELDS st) fun st1 =>
    match (lookupKV dk "spec").getD (.map []) with
    | .map sk => pseq (adVersionStep sk name st1) (adDefRest2 sk name)
    | _ => (st1, false)
  | _ => (st, false)

/-- The rate-limit / quota scan over one flow's `pre` list, with Python's
`break` at the first match. -/
def apScanPre : List Yaml → Except Unit Bool
  | [] => .ok false
  | p :: rest =>
    match p with
    | .map pk =>
      if yEqStr ((lookupKV pk "policy").getD .null) "rate-limit"
          || yEqStr ((lookupKV pk "policy").getD .null) "quota" then .ok true
      else apScanPre rest
    | _ => .error ()

/-- The flows loop of the rate-limit scan in `_validate_api_plan` (the
`break` only leaves the inner loop, so later flows are still scanned). -/
def apFlowsScan : List Yaml → Bool → Except Unit Bool
  | [], acc => .ok acc
  | f :: rest, acc =>
    match f with
    | .map fk =>
      match pyIterE ((lookupKV fk "pre").getD (.list [])) with
      | .error _ => .error ()
      | .ok ps =>
        match apScanPre ps with
        | .error _ => .error ()
        | .ok b => apFlowsScan rest (acc || b)
    | _ => .error ()

/-- `_validate_api_plan` after its required-field loop (`sk` is the entries
of `spec`). -/
def apPlanRest (sk : List (String × Yaml)) (name : String) (st : St) : St × Bool :=
  let security := (lookupKV sk "security").getD .null
  let st2 : St :=
    if security.truthy && !(VALID_SECURITY_TYPES.any (yEqStr security)) then
      (st.1 ++ [secMsg name security], st.2)
    else st
  let status := (lookupKV sk "status").getD .null
  let st3 : St :=
    if status.truthy && !(VALID_PLAN_STATUSES.any (yEqStr status)) then
      (st2.1 ++ [statusMsg name status], st2.2)
    else st2
  match pyIterE ((lookupKV sk "flows").getD (.list [])) with
  | .error _ => (st3, false)
  | .ok fl =>
    match apFlowsScan fl false with
    | .error _ => (st3, false)
    | .ok hasRL =>
      if !hasRL && !(yEqStr security "KEY_LESS") then ((st3.1, st3.2 ++ [rlMsg name]), true)
      else (st3, true)

/-- `_validate_api_plan`. -/
def _validate_api_plan (doc : Yaml) (name : String) (st : St) : St × Bool :=
  match doc with
  | .map dk =>
    pseq (adRequired doc name REQUIRED_API_PLAN_FIELDS st) fun st1 =>
    match (lookupKV dk "spec").getD (.map []) with
    | .map sk => apPlanRest sk name st1
    | _ => (st1, false)
  | _ => (st, false)

/-- `_validate_management_context`. -/
def _validate_management_context (doc : Yaml) (name : String) (st : St) : St × Bool :=
  match doc with
  | .map dk =>
    match (lookupKV dk "spec").getD (.map []) with
    | .map sk =>
      let st1 : St :=
        if ((lookupKV sk "baseUrl").getD .null).truthy then st
        else (st.1 ++ [mcBaseMsg name], st.2)
      match (lookupKV sk "auth").getD (.map []) with
      | .map ak =>
        let st2 : St :=
          if ((lookupKV ak "secretRef").getD .null).truthy then st1
          else (st1.1 ++ [mcAuthMsg name], st1.2)
        (st2, true)
      | _ => (st1, false)
    | _ => (st, false)
  | _ => (st, false)

/-- `_validate_document`: skip non-dict documents, skip foreign
`apiVersion`s, read `metadata.name`, then dispatch on `kind`. -/
def _validate_document (doc : Yaml) (fp : String) (st : St) : St × Bool :=
  match doc with
  | .map dk =>
    let api_version := (lookupKV dk "apiVersion").getD (.str "")
    let kind := (lookupKV dk "kind").getD (.str "")
    match api_version with
    | .str s =>
      if strStartsWith s "gravitee.io/" then
        match (lookupKV dk "metadata").getD (.map []) with
        | .map mk =>
          let name := pyStr ((lookupKV mk "name").getD (.str "unknown"))
          if yEqStr kind "ApiDefinition" then _validate_api_definition (.map dk) name st
          else if yEqStr kind "ApiPlan" then _validate_api_plan (.map dk) name st
          else if yEqStr kind "ManagementContext" then
            _validate_management_context (.map dk) name st
          else (st, true)
        | _ => (st, false)
      else (st, true)
    | _ => (st, false)
  | _ => (st, true)

/-- The documents loop of `validate_file` (`None` documents are skipped). -/
def validateDocs (fp : String) : List Yaml → St → St × Bool
  | [], st => (st, true)
  | d :: rest, st =>
    match d with
    | .null => validateDocs fp rest st
    | _ => pseq (_validate_document d fp st) (validateDocs fp rest)

/-- `validate_file`, taking the outcome of `yaml.safe_load_all` as input:
a decode failure is recorded as one error finding and the file is done. -/
def validate_file (fp : String) (decoded : Except String (List Yaml)) (st : St) : St × Bool :=
  match decoded with
  | .error e => ((st.1 ++ [yamlErrMsg fp e], st.2), true)
  | .ok docs => validateDocs fp docs st

/-- The per-file loop of `main`: an uncaught exception aborts the rest. -/
def runFiles : List (String × Except String (List Yaml)) → St → St × Bool
  | [], st => (st, true)
  | (fp, d) :: rest, st => pseq (validate_file fp d st) (runFiles rest)

/-- The process exit status of `main` over already-decoded files: `1` on an
uncaught exception or when any error finding exists, else `0`. -/
def gkoExitCode (files : List (String × Except String (List Yaml))) : Nat :=
  let r := runFiles files ([], [])
  if !r.2 then 1
  else if r.1.1.isEmpty then 0
  else 1

/-- Errors accumulated by a full run. -/
def gkoErrors (files : List (String × Except String (List Yaml))) : List String :=
  (runFiles files ([], [])).1.1

/-- `apiVersion` is a string with the `gravitee.io/` prefix. -/
def apiVersionPrefixed (doc : Yaml) : Bool :=
  match doc with
  | .map dk =>
    match (lookupKV dk "apiVersion").getD (.str "") with
    | .str s => strStartsWith s "gravitee.io/"
    | _ => false
  | _ => false

/-- The `kind` value of a document (`doc.get('kind', '')`). -/
def kindOf (doc : Yaml) : Yaml :=
  match doc with
  | .map dk => (lookupKV dk "kind").getD (.str "")
  | _ => .str ""

/-- `kind` is one of the kinds the validator dispatches on. -/
def kindRecognized (doc : Yaml) : Bool :=
  yEqStr (kindOf doc) "ApiDefinition" || yEqStr (kindOf doc) "ApiPlan"
    || yEqStr (kindOf doc) "ManagementContext"

/-- `doc.get('metadata', \x7b\x7d)` is a dict (so that reading
`metadata.name` does not raise). -/
def metadataOk (doc : Yaml) : Bool :=
  match doc with
  | .map dk =>
    match (lookupKV dk "metadata").getD (.map []) with
    | .map _ => true
    | _ => false
  | _ => false

/-- The resource name used in finding messages (`metadata.get('name', 'unknown')`). -/
def docName (doc : Yaml) : String :=
  match doc with
  | .map dk =>
    match (lookupKV dk "metadata").getD (.map []) with
    | .map mk => pyStr ((lookupKV mk "name").getD (.str "unknown"))
    | _ => "unknown"
  | _ => "unknown"

/-- The claim's "absent or empty" for a resolved dotted path. -/
def absentOrEmpty (v : Yaml) : Prop :=
  v = .null ∨ v = .str "" ∨ v = .list [] ∨ v = .map []

end GKO

namespace Policies

/-- One issue recorded by `validate-policies.py`. -/
structure Issue where
  api : String
  severity : String
  message : String
  file : String
deriving DecidableEq

/-- The accumulated `issues` list. -/
abbrev PSt := List Issue

/-- Substring test, Python's `needle in hay`. -/
def containsSub (needle hay : String) : Bool :=
  hay.data.tails.any fun t => needle.data.isPrefixOf t

/-- The `all_policies` collection loop: extend with each flow's `pre` and
`post` lists. -/
def collectPolicies : List Yaml → Except Unit (List Yaml)
  | [] => .ok []
  | f :: rest =>
    match f with
    | .map fk =>
      match pyIterE ((lookupKV fk "pre").getD (.list [])) with
      | .error _ => .error ()
      | .ok pres =>
        match pyIterE ((lookupKV fk "post").getD (.list [])) with
        | .error _ => .error ()
        | .ok posts =>
          match collectPolicies rest with
          | .error _ => .error ()
          | .ok more => .ok (pres ++ posts ++ more)
    | _ => .error ()

/-- `[p.get('policy') for p in all_policies]`. -/
def policyTypesOf : List Yaml → Except Unit (List Yaml)
  | [] => .ok []
  | p :: rest =>
    match p with
    | .map pk =>
      match policyTypesOf rest with
      | .error _ => .error ()
      | .ok ts => .ok ((lookupKV pk "policy").getD .null :: ts)
    | _ => .error ()

def noRateLimitMsg : String := "No rate limiting policy found"
def secHeadersMsg : String :=
  "Consider adding security headers (X-Content-Type-Options, X-Frame-Options, etc.)"
def payloadCondMsg : String :=
  "Payload logging enabled without condition - may impact performance"
def highRateMsg (limit : Yaml) : String := "Very high rate limit: " ++ pyStr limit ++ "/second"
def lowRateMsg (limit : Yaml) : String :=
  "Low rate limit: " ++ pyStr limit ++ "/minute - may affect usability"
def cbMsg (target : String) : String :=
  "Consider adding circuit breaker for external endpoint: " ++ target

/-- `_validate_rate_limit`. -/
def _validate_rate_limit (policy : Yaml) (api fp : String) (is : PSt) : PSt × Bool :=
  match policy with
  | .map pk =>
    match (lookupKV pk "configuration").getD (.map []) with
    | .map ck =>
      match (lookupKV ck "rate").getD (.map []) with
      | .map rk =>
        let limit := (lookupKV rk "limit").getD (.int 0)
        let period_unit := (lookupKV rk "periodTimeUnit").getD (.str "SECONDS")
        if yEqStr period_unit "SECONDS" then
          match pyNumE limit with
          | .error _ => (is, false)
          | .ok n =>
            (if n > 100 then is ++ [⟨api, "warning", highRateMsg limit, fp⟩] else is, true)
        else if yEqStr period_unit "MINUTES" then
          match pyNumE limit with
          | .error _ => (is, false)
          | .ok n =>
            (if n < 5 then is ++ [⟨api, "info", lowRateMsg limit, fp⟩] else is, true)
        else (is, true)
      | _ => (is, false)
    | _ => (is, false)
  | _ => (is, false)

/-- The rate-limit configuration loop. -/
def rateLimitLoop (api fp : String) : List Yaml → PSt → PSt × Bool
  | [], is => (is, true)
  | p :: rest, is =>
    match p with
    | .map pk =>
      if yEqStr ((lookupKV pk "policy").getD .null) "rate-limit" then
        pseq (_validate_rate_limit (.map pk) api fp is) (rateLimitLoop api fp rest)
      else rateLimitLoop api fp rest is
    | _ => (is, false)

/-- The inner `add_headers` loop, with `break` at the first security header. -/
def headerScanList : List Yaml → Except Unit Bool
  | [] => .ok false
  | h :: rest =>
    match h with
    | .map hk =>
      if ["X-Content-Type-Options", "X-Frame-Options", "Strict-Transport-Security"].any
          (yEqStr ((lookupKV hk "name").getD .null)) then .ok true
      else headerScanList rest
    | _ => .error ()

/-- The security-headers scan over `all_policies` (the `break` only leaves
the header loop, so later `transform-headers` policies are still visited). -/
def securityHeadersScan : List Yaml → Bool → Except Unit Bool
  | [], acc => .ok acc
  | p :: rest, acc =>
    match p with
    | .map pk =>
      if yEqStr ((lookupKV pk "policy").getD .null) "transform-headers" then
        match (lookupKV pk "configuration").getD (.map []) with
        | .map ck =>
          match pyIterE ((lookupKV ck "addHeaders").getD (.list [])) with
          | .error _ => .error ()
          | .ok hs =>
            match headerScanList hs with
            | .error _ => .error ()
            | .ok b => securityHeadersScan rest (acc || b)
        | _ => .error ()
      else securityHeadersScan rest acc
    | _ => .error ()

/-- The circuit-breaker check over one group's endpoints. -/
def cbEndpoints (policy_types : List Yaml) (api fp : String) : List Yaml → PSt → PSt × Bool
  | [], is => (is, true)
  | e :: rest, is =>
    match e with
    | .map ek =>
      match (lookupKV ek "target").getD (.str "") with
      | .str target =>
        let is1 : PSt :=
          if (containsSub "external" target.toLower || !(containsSub ".svc.cluster.local" target))
              && !(policy_types.any (yEqStr · "circuit-breaker")) then
            is ++ [⟨api, "info", cbMsg target, fp⟩]
          else is
        cbEndpoints policy_types api fp rest is1
      | _ => (is, false)
    | _ => (is, false)

/-- The circuit-breaker check over `proxy.groups`. -/
def cbGroups (policy_types : List Yaml) (api fp : String) : List Yaml → PSt → PSt × Bool
  | [], is => (is, true)
  | g :: rest, is =>
    match g with
    | .map gk =>
      match pyIterE ((lookupKV gk "endpoints").getD (.list [])) with
      | .error _ => (is, false)
      | .ok es => pseq (cbEndpoints policy_types api fp es is) (cbGroups policy_types api fp rest)
    | _ => (is, false)

/-- The circuit-breaker phase (`sk` is the entries of `spec`). -/
def cbPhase (sk : List (String × Yaml)) (policy_types : List Yaml) (api fp : String)
    (is : PSt) : PSt × Bool :=
  match (lookupKV sk "proxy").getD (.map []) with
  | .map pk =>
    match pyIterE ((lookupKV pk "groups").getD (.list [])) with
    | .error _ => (is, false)
    | .ok gs => cbGroups policy_types api fp gs is
  | _ => (is, false)

/-- The analytics / payload-logging check (`sk` is the entries of `spec`). -/
def logPhase (sk : List (String × Yaml)) (api fp : String) (is : PSt) : PSt × Bool :=
  match (lookupKV sk "analytics").getD (.map []) with
  | .map ak =>
    match (lookupKV ak "logging").getD (.map []) with
    | .map lk =>
      if yEqStr ((lookupKV lk "content").getD .null) "PAYLOADS" then
        let condition := (lookupKV lk "condition").getD (.str "")
        if !condition.truthy || yEqStr condition "true" then
          (is ++ [⟨api, "warning", payloadCondMsg, fp⟩], true)
        else (is, true)
      else (is, true)
    | _ => (is, false)
  | _ => (is, false)

/-- `_validate_api_definition` of `validate-policies.py`. -/
def _validate_api_definition (doc : Yaml) (fp : String) (is : PSt) : PSt × Bool :=
  match doc with
  | .map dk =>
    match (lookupKV dk "metadata").getD (.map []) with
    | .map mk =>
      let api := pyStr ((lookupKV mk "name").getD (.str "unknown"))
      match (lookupKV dk "spec").getD (.map []) with
      | .map sk =>
        match pyIterE ((lookupKV sk "flows").getD (.list [])) with
        | .error _ => (is, false)
        | .ok flows =>
          match collectPolicies flows with
          | .error _ => (is, false)
          | .ok all_policies =>
            match policyTypesOf all_policies with
            | .error _ => (is, false)
            | .ok policy_types =>
              let is1 : PSt :=
                if !(policy_types.any (yEqStr · "rate-limit"))
                    && !(policy_types.any (yEqStr · "quota")) then
                  is ++ [⟨api, "warning", noRateLimitMsg, fp⟩]
                else is
              pseq (rateLimitLoop api fp all_policies is1) fun is2 =>
              match securityHeadersScan all_policies false with
              | .error _ => (is2, false)
              | .ok hsh =>
                let is3 : PSt := if !hsh then is2 ++ [⟨api, "info", secHeadersMsg, fp⟩] else is2
                pseq (logPhase sk api fp is3) fun is4 =>
                cbPhase sk policy_types api fp is4
      | _ => (is, false)
    | _ => (is, false)
  | _ => (is, false)

/-- The documents loop of `validate_file` (only truthy documents whose
`kind` is `ApiDefinition` are validated). -/
def polDocsLoop (fp : String) : List Yaml → PSt → PSt × Bool
  | [], is => (is, true)
  | d :: rest, is =>
    if d.truthy then
      match d with
      | .map dk =>
        if yEqStr ((lookupKV dk "kind").getD .null) "ApiDefinition" then
          pseq (_validate_api_definition (.map dk) fp is) (polDocsLoop fp rest)
        else polDocsLoop fp rest is
      | _ => (is, false)
    else polDocsLoop fp rest is

/-- `validate_file`: a `yaml.YAMLError` is swallowed and the file skipped. -/
def validate_file (fp : String) (decoded : Except Unit (List Yaml)) (is : PSt) : PSt × Bool :=
  match decoded with
  | .error _ => (is, true)
  | .ok docs => polDocsLoop fp docs is

/-- The files loop of `validate_directory` / `main`. -/
def polRunFiles : List (String × Except Unit (List Yaml)) → PSt → PSt × Bool
  | [], is => (is, true)
  | (fp, d) :: rest, is => pseq (validate_file fp d is) (polRunFiles rest)

/-- The error-severity partition computed by `print_results` / `main`. -/
def polErrorPartition (files : List (String × Except Unit (List Yaml))) : List Issue :=
  ((polRunFiles files []).1).filter fun i => i.severity == "error"

/-- The process exit status of `main`: `1` on an uncaught exception or a
nonempty error partition, else `0`. -/
def polExitCode (files : List (String × Except Unit (List Yaml))) : Nat :=
  let r := polRunFiles files []
  if !r.2 then 1
  else if (r.1.filter fun i => i.severity == "error").isEmpty then 0
  else 1

/-- An advisory issue: severity `warning` or `info`. -/
def sevAdvisory (i : Issue) : Prop :=
  i.severity = "warning" ∨ i.severity = "info"

end Policies

namespace Perf

/-- A JSON value as produced by `json.load`; numeric leaves are rationals
(the thresholds and the sample inputs in scope are exactly representable). -/
inductive Json where
  | null
  | bool (b : Bool)
  | num (q : ℚ)
  | str (s : String)
  | arr (xs : List Json)
  | obj (kvs : List (String × Json))

def jLookup : List (String × Json) → String → Option Json
  | [], _ => none
  | (k, v) :: rest, key => if k == key then some v else jLookup rest key

/-- `d.get(k, dflt)`, raising on a non-dict receiver. -/
def jGetDE (d : Json) (k : String) (dflt : Json) : Except Unit Json :=
  match d with
  | .obj kvs => .ok ((jLookup kvs k).getD dflt)
  | _ => .error ()

/-- Numeric coercion for an order comparison (`bool` is an `int` subtype in
Python; other values raise `TypeError`). -/
def jNumE : Json → Except Unit ℚ
  | .num q => .ok q
  | .bool b => .ok (if b then 1 else 0)
  | _ => .error ()

/-- The `THRESHOLDS` table of `check-performance-thresholds.py`. -/
structure Thresholds where
  p50_latency_ms : ℚ
  p95_latency_ms : ℚ
  p99_latency_ms : ℚ
  error_rate_percent : ℚ
  min_rps : ℚ

def THRESHOLDS : Thresholds :=
  { p50_latency_ms := 200, p95_latency_ms := 500, p99_latency_ms := 1000
    error_rate_percent := 1, min_rps := 100 }

/-- `check_thresholds` on the decoded summary: reads
`metrics.http_req_duration.values.p(50)` and `p(95)` and
`metrics.errors.values.rate` and compares them against the thresholds. -/
def check_thresholds (data : Json) : Except Unit Bool :=
  match jGetDE data "metrics" (.obj []) with
  | .error _ => .error ()
  | .ok metrics =>
    match jGetDE metrics "http_req_duration" (.obj []) with
    | .error _ => .error ()
    | .ok hrd =>
      match jGetDE hrd "values" (.obj []) with
      | .error _ => .error ()
      | .ok duration =>
        match jGetDE duration "p(50)" (.num 0) with
        | .error _ => .error ()
        | .ok p50v =>
          match jNumE p50v with
          | .error _ => .error ()
          | .ok p50 =>
            match jGetDE duration "p(95)" (.num 0) with
            | .error _ => .error ()
            | .ok p95v =>
              match jNumE p95v with
              | .error _ => .error ()
              | .ok p95 =>
                match jGetDE metrics "errors" (.obj []) with
                | .error _ => .error ()
                | .ok errs =>
                  match jGetDE errs "values" (.obj []) with
                  | .error _ => .error ()
                  | .ok errVals =>
                    match jGetDE errVals "rate" (.num 0) with
                    | .error _ => .error ()
                    | .ok ratev =>
                      match jNumE ratev with
                      | .error _ => .error ()
                      | .ok rate =>
                        .ok (!(p50 > THRESHOLDS.p50_latency_ms)
                          && !(p95 > THRESHOLDS.p95_latency_ms)
                          && !(rate * 100 > THRESHOLDS.error_rate_percent))

/-- The process exit status of the script's `__main__` block: `0` only when
`check_thresholds` returns `True`; a falsy result or an exception gives `1`. -/
def perfExitCode (data : Json) : Nat :=
  match check_thresholds data with
  | .ok true => 0
  | _ => 1

end Perf

namespace Sensitive

/-- One finding recorded by `check-sensitive-data.py`. -/
structure SDFinding where
  file : String
  line : Nat
  description : String
  content : String

/-- The deduplication key `(finding['file'], finding['line'], finding['description'])`. -/
def tripleOf (f : SDFinding) : String × Nat × String :=
  (f.file, f.line, f.description)

/-- Substring test, Python's `p in s`. -/
def containsSub (needle hay : String) : Bool :=
  hay.data.tails.any fun t => needle.data.isPrefixOf t

/-- The dedup loop of `print_results` (`seen` set, first occurrence kept). -/
def dedupGo : List SDFinding → List (String × Nat × String) → List SDFinding
  | [], _ => []
  | f :: rest, seen =>
    if tripleOf f ∈ seen then dedupGo rest seen
    else f :: dedupGo rest (tripleOf f :: seen)

/-- `unique_findings` as computed by `print_results`. -/
def unique_findings (fs : List SDFinding) : List SDFinding :=
  dedupGo fs []

def critical_patterns : List String := ["Private key", "AWS", "GitHub"]

/-- A finding whose description contains one of the critical markers. -/
def isCritical (f : SDFinding) : Bool :=
  critical_patterns.any fun p => containsSub p f.description

/-- The exit code computed by `print_results` and passed to `sys.exit`:
`0` with no findings, else `1` exactly when a deduplicated finding is
critical. -/
def print_results_exit (fs : List SDFinding) : Nat :=
  if fs.isEmpty then 0
  else if (unique_findings fs).any isCritical then 1
  else 0

end Sensitive

/-! Claim-support definitions: a descent witness for the dotted-path
accessor and concrete inputs used by counterexamples and witnesses. -/

/-- `MapDescent d ks v`: starting from `d`, every segment of `ks` descends
through a map, ending at `v`. -/
inductive MapDescent : Yaml → List String → Yaml → Prop
  | nil (d : Yaml) : MapDescent d [] d
  | cons (kvs : List (String × Yaml)) (k : String) (ks : List String) (v : Yaml) :
      MapDescent ((lookupKV kvs k).getD .null) ks v → MapDescent (.map kvs) (k :: ks) v

/-- A k6 summary whose `p(99)` value is the parameter and whose other
consumed metrics are far below their thresholds. -/
def perfWithP99 (q : ℚ) : Perf.Json :=
  .obj [("metrics", .obj
    [("http_req_duration", .obj [("values", .obj
        [("p(50)", .num 100), ("p(95)", .num 200), ("p(99)", .num q)])]),
     ("errors", .obj [("values", .obj [("rate", .num 0)])])])]

/-- A policy entry whose `policy` type is `rate-limit` or `quota`. -/
def isRLPolicy (p : Yaml) : Bool :=
  match p with
  | .map pk =>
    yEqStr ((lookupKV pk "policy").getD .null) "rate-limit"
      || yEqStr ((lookupKV pk "policy").getD .null) "quota"
  | _ => false

/-- A flow whose `pre` list contains a rate-limit/quota policy (what the
code's scan actually looks at). -/
def flowPreRL (f : Yaml) : Bool :=
  match f with
  | .map fk =>
    match (lookupKV fk "pre").getD (.list []) with
    | .list pl => pl.any isRLPolicy
    | _ => false
  | _ => false

/-- Some flow's `pre` list declares a rate-limit/quota policy. -/
def hasRLpre (fls : List Yaml) : Bool :=
  fls.any flowPreRL

/-- A flow whose `pre` or `post` list contains a rate-limit/quota policy
(the claim's "anywhere in its flows"). -/
def flowAnyRL (f : Yaml) : Bool :=
  match f with
  | .map fk =>
    (match (lookupKV fk "pre").getD (.list []) with
      | .list pl => pl.any isRLPolicy
      | _ => false)
    || (match (lookupKV fk "post").getD (.list []) with
      | .list pl => pl.any isRLPolicy
      | _ => false)
  | _ => false

/-- Some flow declares a rate-limit/quota policy in `pre` or `post`. -/
def hasRLanywhere (fls : List Yaml) : Bool :=
  fls.any flowAnyRL

/-- Well-formed plan flows: each flow is a map whose `pre` value is a list
of maps, so the rate-limit scan runs without a type error. -/
def planFlowsWF : List Yaml → Bool
  | [] => true
  | .map fk :: rest =>
    (match (lookupKV fk "pre").getD (.list []) with
      | .list pl => pl.all Yaml.isMap
      | _ => false) && planFlowsWF rest
  | _ :: _ => false

/-- The flows of the `post`-only example plan: the only rate-limiting
policy sits in a flow's `post` list. -/
def postOnlyPlanFlows : List Yaml :=
  [.map [("pre", .list []),
    ("post", .list [.map [("policy", .str "quota"),
      ("configuration", .map [("x", .int 1)])]])]]

/-- The `spec` entries of the `post`-only example plan. -/
def postOnlyPlanSpec : List (String × Yaml) :=
  [("name", .str "n"), ("apiRef", .str "a"),
    ("contextRef", .map [("name", .str "c")]),
    ("security", .str "API_KEY"), ("status", .str "PUBLISHED"),
    ("flows", .list postOnlyPlanFlows)]

/-- The top-level entries of the `post`-only example plan. -/
def postOnlyPlanFields : List (String × Yaml) :=
  [("apiVersion", .str "gravitee.io/v1alpha1"), ("kind", .str "ApiPlan"),
    ("metadata", .map [("name", .str "p1")]),
    ("spec", .map postOnlyPlanSpec)]

/-- An `ApiPlan` whose only rate-limiting policy sits in a flow's `post`
list (the scan in `_validate_api_plan` only looks at `pre`). -/
def postOnlyPlanDoc : Yaml :=
  .map postOnlyPlanFields

/-- An `ApiDefinition` missing `spec.version` (and more), used to witness
the required-field claim. -/
def missingVersionDoc : Yaml :=
  .map [("apiVersion", .str "gravitee.io/v1alpha1"), ("kind", .str "ApiDefinition"),
    ("metadata", .map [("name", .str "demo")]),
    ("spec", .map [("name", .str "x")])]

/-- The `spec` entries of the example `ApiDefinition` with version `1.2`. -/
def badVersionSpec : List (String × Yaml) :=
  [("name", .str "x"), ("version", .str "1.2"),
    ("contextRef", .map [("name", .str "c")]),
    ("proxy", .map [("virtualHosts", .list [.map [("path", .str "/v")]]),
      ("groups", .list [.map [("name", .str "g"),
        ("endpoints", .list [.map [("target", .str "http://backend.example")]])]])])]

/-- The top-level entries of the example `ApiDefinition` with version `1.2`. -/
def badVersionFields : List (String × Yaml) :=
  [("apiVersion", .str "gravitee.io/v1alpha1"), ("kind", .str "ApiDefinition"),
    ("metadata", .map [("name", .str "demo2")]),
    ("spec", .map badVersionSpec)]

/-- A complete `ApiDefinition` whose only defect is the two-part version
string `1.2`. -/
def badVersionDoc : Yaml :=
  .map badVersionFields

/-- A YAML document that is a non-empty list: `validate-policies.py` calls
`.get` on it and raises `AttributeError`. -/
def polCrashFiles : List (String × Except Unit (List Yaml)) :=
  [("bad.yaml", .ok [.list [.int 1]])]

/-! ## Theorems -/

theorem getNestedKeys_nil (d : Yaml) : GKO.getNestedKeys d [] = d := by
  cases d <;> rfl

/-- C7: the dotted-path accessor is total: a descent that reaches a
non-map with path segments remaining yields `None`, every result is either
`None` or obtained by descending through maps only, and the dotted-path
entry point is the split-key descent. -/
theorem c7_nested_accessor_total :
    (∀ (d : Yaml) (k : String) (rest : List String),
        d.isMap = false → GKO.getNestedKeys d (k :: rest) = .null)
    ∧ (∀ (d : Yaml) (ks : List String),
        GKO.getNestedKeys d ks = .null ∨ MapDescent d ks (GKO.getNestedKeys d ks))
    ∧ (∀ (d : Yaml) (path : String),
        GKO._get_nested_value d path = GKO.getNestedKeys d (strSplitDot path)) := by
  refine ⟨?_, ?_, ?_⟩
  · intro d k rest h
    cases d <;> first
      | rfl
      | simp [Yaml.isMap] at h
  · intro d ks
    induction ks generalizing d with
    | nil => rw [getNestedKeys_nil]; exact Or.inr (MapDescent.nil d)
    | cons k rest ih =>
      cases d with
      | map kvs =>
        rcases ih ((lookupKV kvs k).getD .null) with h | h
        · exact Or.inl h
        · exact Or.inr (MapDescent.cons kvs k rest _ h)
      | null => exact Or.inl rfl
      | bool b => exact Or.inl rfl
      | int n => exact Or.inl rfl
      | str s => exact Or.inl rfl
      | list xs => exact Or.inl rfl
  · intro d path
    rfl

/-- Witness for C7 at a concrete non-map value and path. -/
theorem c7_witness :
    Yaml.isMap (.str "x") = false ∧ GKO.getNestedKeys (.str "x") ["a"] = .null :=
  ⟨rfl, c7_nested_accessor_total.1 (.str "x") "a" [] rfl⟩

/-- C3: when the GKO run completes (no uncaught exception), the exit
status is `0` exactly when the accumulated error list is empty; warnings
do not enter the computation. -/
theorem c3_exit_zero_iff_no_errors :
    ∀ (files : List (String × Except String (List Yaml))) (st : GKO.St),
      GKO.runFiles files ([], []) = (st, true) →
      (GKO.gkoExitCode files = 0 ↔ st.1 = []) := by
  intro files st h
  simp only [GKO.gkoExitCode, h, Bool.not_true, Bool.false_eq_true, if_false]
  by_cases he : st.1 = []
  · simp [he]
  · simp [List.isEmpty_iff, he]

/-- Witness for C3 at a concrete run. -/
theorem c3_witness :
    GKO.runFiles [("a.yaml", Except.ok [])] ([], []) = (([], []), true)
    ∧ (GKO.gkoExitCode [("a.yaml", Except.ok [])] = 0 ↔ ([] : List String) = []) :=
  ⟨rfl, c3_exit_zero_iff_no_errors [("a.yaml", Except.ok [])] ([], []) rfl⟩

/-- C5: a decode failure yields exactly one error finding (for that file,
no document-level findings), the remaining files are still processed, and
a document that decodes to `None` or to a non-map contributes nothing. -/
theorem c5_decode_failure_isolated :
    (∀ (fp e : String) (st : GKO.St),
        GKO.validate_file fp (Except.error e) st
          = ((st.1 ++ [GKO.yamlErrMsg fp e], st.2), true))
    ∧ (∀ (fp e : String) (rest : List (String × Except String (List Yaml))) (st : GKO.St),
        GKO.runFiles ((fp, Except.error e) :: rest) st
          = GKO.runFiles rest (st.1 ++ [GKO.yamlErrMsg fp e], st.2))
    ∧ (∀ (fp : String) (d : Yaml) (rest : List Yaml) (st : GKO.St),
        d = Yaml.null ∨ d.isMap = false →
        GKO.validateDocs fp (d :: rest) st = GKO.validateDocs fp rest st) := by
  refine ⟨fun fp e st => rfl, ?_, ?_⟩
  · intro fp e rest st
    simp [GKO.runFiles, GKO.validate_file, pseq]
  · intro fp d rest st h
    rcases h with h | h
    · subst h; rfl
    · cases d with
      | null => rfl
      | map kvs => simp [Yaml.isMap] at h
      | bool b => simp [GKO.validateDocs, GKO._validate_document, pseq]
      | int n => simp [GKO.validateDocs, GKO._validate_document, pseq]
      | str s => simp [GKO.validateDocs, GKO._validate_document, pseq]
      | list xs => simp [GKO.validateDocs, GKO._validate_document, pseq]

/-- Witness for C5 at concrete inputs. -/
theorem c5_witness :
    (GKO.validate_file "f.yaml" (Except.error "bad") ([], [])
        = ((["YAML parsing error in f.yaml: bad"], []), true))
    ∧ (GKO.runFiles [("f.yaml", Except.error "bad"), ("g.yaml", Except.ok [])] ([], [])
        = GKO.runFiles [("g.yaml", Except.ok [])] (["YAML parsing error in f.yaml: bad"], []))
    ∧ GKO.validateDocs "g.yaml" [Yaml.int 3] ([], []) = GKO.validateDocs "g.yaml" [] ([], []) := by
  refine ⟨?_, ?_, ?_⟩
  · have h := c5_decode_failure_isolated.1 "f.yaml" "bad" ([], [])
    simpa [GKO.yamlErrMsg] using h
  · have h := c5_decode_failure_isolated.2.1 "f.yaml" "bad" [("g.yaml", Except.ok [])] ([], [])
    simpa [GKO.yamlErrMsg] using h
  · exact c5_decode_failure_isolated.2.2 "g.yaml" (Yaml.int 3) [] ([], []) (Or.inr rfl)

/-- C8: the performance checker never reads `p(99)`: with `p(50)`, `p(95)`
and the error rate far below their thresholds, every value of `p(99)` —
including `5000`, five times the `p99_latency_ms` threshold the script
itself declares — yields a passing check and exit status `0`. -/
theorem c8_p99_threshold_never_enforced :
    (∀ q : ℚ, Perf.check_thresholds (perfWithP99 q) = Except.ok true)
    ∧ (5000 : ℚ) > Perf.THRESHOLDS.p99_latency_ms
    ∧ Perf.perfExitCode (perfWithP99 5000) = 0 := by
  have h1 : ∀ q : ℚ, Perf.check_thresholds (perfWithP99 q) = Except.ok true := by
    intro q
    simp [perfWithP99, Perf.check_thresholds, Perf.jGetDE, Perf.jLookup, Perf.jNumE,
      Perf.THRESHOLDS]
    norm_num
  refine ⟨h1, by norm_num [Perf.THRESHOLDS], ?_⟩
  simp [Perf.perfExitCode, h1 5000]

theorem dedupGo_cons_seen (f : Sensitive.SDFinding) (rest : List Sensitive.SDFinding)
    (seen : List (String × Nat × String)) (h : Sensitive.tripleOf f ∈ seen) :
    Sensitive.dedupGo (f :: rest) seen = Sensitive.dedupGo rest seen := by
  simp [Sensitive.dedupGo, h]

theorem dedupGo_cons_new (f : Sensitive.SDFinding) (rest : List Sensitive.SDFinding)
    (seen : List (String × Nat × String)) (h : Sensitive.tripleOf f ∉ seen) :
    Sensitive.dedupGo (f :: rest) seen
      = f :: Sensitive.dedupGo rest (Sensitive.tripleOf f :: seen) := by
  simp [Sensitive.dedupGo, h]

theorem dedupGo_mem_triple (fs : List Sensitive.SDFinding)
    (seen : List (String × Nat × String)) (t : String × Nat × String) :
    t ∈ (Sensitive.dedupGo fs seen).map Sensitive.tripleOf
      ↔ t ∈ fs.map Sensitive.tripleOf ∧ t ∉ seen := by
  induction fs generalizing seen with
  | nil => simp [Sensitive.dedupGo]
  | cons f rest ih =>
    by_cases h : Sensitive.tripleOf f ∈ seen
    · rw [dedupGo_cons_seen f rest seen h]
      simp only [ih, List.map_cons, List.mem_cons]
      constructor
      · rintro ⟨hm, hs⟩
        exact ⟨Or.inr hm, hs⟩
      · rintro ⟨he | hm, hs⟩
        · subst he
          exact absurd h hs
        · exact ⟨hm, hs⟩
    · rw [dedupGo_cons_new f rest seen h]
      simp only [List.map_cons, List.mem_cons, ih]
      constructor
      · rintro (he | ⟨hm, hs⟩)
        · subst he
          exact ⟨Or.inl rfl, h⟩
        · exact ⟨Or.inr hm, fun hx => hs (Or.inr hx)⟩
      · rintro ⟨he | hm, hs⟩
        · exact Or.inl he
        · by_cases hf : t = Sensitive.tripleOf f
          · exact Or.inl hf
          · refine Or.inr ⟨hm, fun hx => ?_⟩
            rcases hx with hx1 | hx2
            · exact hf hx1
            · exact hs hx2

theorem dedupGo_nodup (fs : List Sensitive.SDFinding) (seen : List (String × Nat × String)) :
    ((Sensitive.dedupGo fs seen).map Sensitive.tripleOf).Nodup := by
  induction fs generalizing seen with
  | nil => simp [Sensitive.dedupGo]
  | cons f rest ih =>
    by_cases h : Sensitive.tripleOf f ∈ seen
    · rw [dedupGo_cons_seen f rest seen h]
      exact ih seen
    · rw [dedupGo_cons_new f rest seen h]
      simp only [List.map_cons, List.nodup_cons]
      refine ⟨fun hm => ?_, ih _⟩
      exact ((dedupGo_mem_triple rest _ _).1 hm).2 (List.mem_cons_self _ _)

/-- C9: the sensitive-data scanner deduplicates findings by the
`(file, line, description)` triple (the reported list has no duplicate
triples and exactly the triples of the raw findings), and its exit status
is `1` exactly when some deduplicated finding's description contains one of
the critical markers `Private key`, `AWS`, `GitHub`. -/
theorem c9_dedup_and_critical_exit :
    ∀ fs : List Sensitive.SDFinding,
      ((Sensitive.unique_findings fs).map Sensitive.tripleOf).Nodup
      ∧ (∀ t, t ∈ (Sensitive.unique_findings fs).map Sensitive.tripleOf
            ↔ t ∈ fs.map Sensitive.tripleOf)
      ∧ (Sensitive.print_results_exit fs = 1
          ↔ ∃ f ∈ Sensitive.unique_findings fs, Sensitive.isCritical f = true) := by
  intro fs
  refine ⟨dedupGo_nodup fs [], fun t => ?_, ?_⟩
  · simpa using dedupGo_mem_triple fs [] t
  · unfold Sensitive.print_results_exit
    by_cases he : fs.isEmpty
    · have hfs : fs = [] := List.isEmpty_iff.1 he
      subst hfs
      simp [Sensitive.unique_findings, Sensitive.dedupGo]
    · simp only [if_neg he]
      by_cases hc : (Sensitive.unique_findings fs).any Sensitive.isCritical
      · simp only [if_pos hc]
        exact ⟨fun _ => (List.any_eq_true).1 hc, fun _ => by trivial⟩
      · simp only [if_neg hc]
        constructor
        · intro h
          exact absurd h (by decide)
        · intro h
          exact absurd ((List.any_eq_true).2 h) hc

/-- C2: a document whose `apiVersion` is not a string with the
`gravitee.io/` prefix, or whose `kind` is none of the recognized kinds,
contributes no findings at all, whatever its other content. -/
theorem c2_foreign_documents_no_findings :
    ∀ (doc : Yaml) (fp : String) (st : GKO.St),
      GKO.apiVersionPrefixed doc = false ∨ GKO.kindRecognized doc = false →
      (GKO._validate_document doc fp st).1 = st := by
  intro doc fp st h
  cases doc with
  | map dk =>
    rcases hav : (lookupKV dk "apiVersion").getD (.str "") with _ | b | n | s | xs | kvs
    · simp [GKO._validate_document, hav]
    · simp [GKO._validate_document, hav]
    · simp [GKO._validate_document, hav]
    · by_cases hs : strStartsWith s "gravitee.io/"
      · have hpre : GKO.apiVersionPrefixed (.map dk) = true := by
          simp [GKO.apiVersionPrefixed, hav, hs]
        have hk : GKO.kindRecognized (.map dk) = false := by
          rcases h with h | h
          · rw [hpre] at h; cases h
          · exact h
        have hk1 : yEqStr ((lookupKV dk "kind").getD (.str "")) "ApiDefinition" = false := by
          revert hk
          unfold GKO.kindRecognized GKO.kindOf
          cases yEqStr ((lookupKV dk "kind").getD (.str "")) "ApiDefinition" <;> simp
        have hk2 : yEqStr ((lookupKV dk "kind").getD (.str "")) "ApiPlan" = false := by
          revert hk
          unfold GKO.kindRecognized GKO.kindOf
          cases yEqStr ((lookupKV dk "kind").getD (.str "")) "ApiPlan" <;> simp
        have hk3 : yEqStr ((lookupKV dk "kind").getD (.str "")) "ManagementContext" = false := by
          revert hk
          unfold GKO.kindRecognized GKO.kindOf
          cases yEqStr ((lookupKV dk "kind").getD (.str "")) "ManagementContext" <;> simp
        rcases hmeta : (lookupKV dk "metadata").getD (.map []) with _ | b | n | s2 | xs2 | mk
        all_goals simp [GKO._validate_document, hav, hs, hmeta, hk1, hk2, hk3]
      · simp [GKO._validate_document, hav, hs]
    · simp [GKO._validate_document, hav]
    · simp [GKO._validate_document, hav]
  | null => rfl
  | bool b => rfl
  | int n => rfl
  | str s => rfl
  | list xs => rfl

/-- Witness for C2: a document in a foreign namespace with no `spec`. -/
theorem c2_witness :
    (GKO.apiVersionPrefixed (.map [("apiVersion", .str "other/v1")]) = false
      ∨ GKO.kindRecognized (.map [("apiVersion", .str "other/v1")]) = false)
    ∧ (GKO._validate_document (.map [("apiVersion", .str "other/v1")]) "f.yaml" ([], [])).1
        = ([], []) := by
  refine ⟨Or.inl (by decide), ?_⟩
  exact c2_foreign_documents_no_findings (.map [("apiVersion", .str "other/v1")]) "f.yaml"
    ([], []) (Or.inl (by decide))

theorem strApp_data (a b : String) : (a ++ b).data = a.data ++ b.data := by
  cases a
  cases b
  rfl

theorem strApp_left_cancel {a p q : String} (h : a ++ p = a ++ q) : p = q := by
  have h2 : (a ++ p).data = (a ++ q).data := by rw [h]
  rw [strApp_data, strApp_data] at h2
  have h3 := List.append_cancel_left h2
  cases p
  cases q
  exact congrArg String.mk h3

theorem bracket_inj {n s t : String} (h : GKO.bracket n s = GKO.bracket n t) : s = t :=
  strApp_left_cancel h

theorem data_head_append (a p : String) (c : Char) (h : a.data.head? = some c) :
    (a ++ p).data.head? = some c := by
  rw [strApp_data]
  cases a with
  | mk as =>
    cases as with
    | nil => simp at h
    | cons x xs => simpa using h

theorem bracket_ne_of_head (n s t : String) (c d : Char) (hc : s.data.head? = some c)
    (hd : t.data.head? = some d) (hcd : c ≠ d) : GKO.bracket n s ≠ GKO.bracket n t := by
  intro e
  have hst := bracket_inj e
  rw [hst] at hc
  rw [hc] at hd
  exact hcd (Option.some.inj hd)

theorem reqMsg_ne_lcMsg (n p : String) (v : Yaml) : GKO.reqMsg n p ≠ GKO.lcMsg n v :=
  bracket_ne_of_head n _ _ 'M' 'I'
    (data_head_append "Missing required field: " p 'M' rfl)
    (data_head_append "Invalid lifecycleState: " (pyStr v) 'I' rfl) (by decide)

theorem reqMsg_ne_vhMsg (n p path : String) : GKO.reqMsg n p ≠ GKO.vhMsg n path :=
  bracket_ne_of_head n _ _ 'M' 'V'
    (data_head_append "Missing required field: " p 'M' rfl)
    (data_head_append "Virtual host path must start with '/': " path 'V' rfl) (by decide)

theorem reqMsg_ne_etMissingMsg (n p : String) : GKO.reqMsg n p ≠ GKO.etMissingMsg n :=
  bracket_ne_of_head n _ _ 'M' 'E'
    (data_head_append "Missing required field: " p 'M' rfl) rfl (by decide)

theorem reqMsg_ne_polTypeMsg (n p pn fn : String) : GKO.reqMsg n p ≠ GKO.polTypeMsg n pn fn :=
  bracket_ne_of_head n _ _ 'M' 'P'
    (data_head_append "Missing required field: " p 'M' rfl)
    (data_head_append "Policy '" (pn ++ "' in flow '" ++ fn ++ "' missing policy type") 'P'
      rfl) (by decide)

theorem reqMsg_ne_secMsg (n p : String) (v : Yaml) : GKO.reqMsg n p ≠ GKO.secMsg n v :=
  bracket_ne_of_head n _ _ 'M' 'I'
    (data_head_append "Missing required field: " p 'M' rfl)
    (data_head_append "Invalid security type: " (pyStr v) 'I' rfl) (by decide)

theorem reqMsg_ne_statusMsg (n p : String) (v : Yaml) : GKO.reqMsg n p ≠ GKO.statusMsg n v :=
  bracket_ne_of_head n _ _ 'M' 'I'
    (data_head_append "Missing required field: " p 'M' rfl)
    (data_head_append "Invalid plan status: " (pyStr v) 'I' rfl) (by decide)

theorem verMsg_ne_egMsg (n v g : String) : GKO.verMsg n v ≠ GKO.egMsg n g :=
  bracket_ne_of_head n _ _ 'V' 'E'
    (data_head_append "Version '" (v ++ "' doesn't follow semver format") 'V' rfl)
    (data_head_append "Endpoint group '" (g ++ "' has no endpoints") 'E' rfl) (by decide)

theorem verMsg_ne_etAbsMsg (n v t : String) : GKO.verMsg n v ≠ GKO.etAbsMsg n t :=
  bracket_ne_of_head n _ _ 'V' 'E'
    (data_head_append "Version '" (v ++ "' doesn't follow semver format") 'V' rfl)
    (data_head_append "Endpoint target should be absolute URL: " t 'E' rfl) (by decide)

theorem verMsg_ne_payloadMsg (n v : String) : GKO.verMsg n v ≠ GKO.payloadMsg n :=
  bracket_ne_of_head n _ _ 'V' 'P'
    (data_head_append "Version '" (v ++ "' doesn't follow semver format") 'V' rfl)
    rfl (by decide)

theorem verMsg_ne_flowPathMsg (n v f : String) : GKO.verMsg n v ≠ GKO.flowPathMsg n f :=
  bracket_ne_of_head n _ _ 'V' 'F'
    (data_head_append "Version '" (v ++ "' doesn't follow semver format") 'V' rfl)
    (data_head_append "Flow '" (f ++ "' has no path defined") 'F' rfl) (by decide)

theorem verMsg_ne_polCfgMsg (n v p : String) : GKO.verMsg n v ≠ GKO.polCfgMsg n p :=
  bracket_ne_of_head n _ _ 'V' 'P'
    (data_head_append "Version '" (v ++ "' doesn't follow semver format") 'V' rfl)
    (data_head_append "Policy '" (p ++ "' has no configuration") 'P' rfl) (by decide)

theorem reqMsg_inj {n p q : String} (h : GKO.reqMsg n p = GKO.reqMsg n q) : p = q :=
  strApp_left_cancel (bracket_inj h)

theorem verMsg_inj {n v w : String} (h : GKO.verMsg n v = GKO.verMsg n w) : v = w := by
  have h2 := bracket_inj h
  have h4 : (("Version '".data ++ v.data) ++ "' doesn't follow semver format".data)
      = (("Version '".data ++ w.data) ++ "' doesn't follow semver format".data) := by
    have h3 := congrArg String.data h2
    simpa only [strApp_data] using h3
  have h5 := List.append_cancel_left (List.append_cancel_right h4)
  cases v
  cases w
  exact congrArg String.mk h5

theorem count_append_one (l : List String) (x m : String) (h : x ≠ m) :
    (l ++ [x]).count m = l.count m := by
  simp [List.count_append, List.count_singleton', h]

theorem pseq_err_count (m : String) (r : GKO.St × Bool) (f : GKO.St → GKO.St × Bool)
    (hf : ∀ s, (((f s).1).1).count m = s.1.count m) :
    (((pseq r f).1).1).count m = ((r.1).1).count m := by
  unfold pseq
  by_cases h : r.2 <;> simp [h, hf]

theorem pseq_warn_count (m : String) (r : GKO.St × Bool) (f : GKO.St → GKO.St × Bool)
    (hf : ∀ s, (((f s).1).2).count m = s.2.count m) :
    (((pseq r f).1).2).count m = ((r.1).2).count m := by
  unfold pseq
  by_cases h : r.2 <;> simp [h, hf]

theorem adRequired_spec (doc : Yaml) (name : String) (l : List String) (st : GKO.St) :
    GKO.adRequired doc name l st
      = ((st.1 ++ (l.filter fun q => !(GKO._get_nested_value doc q).truthy).map (GKO.reqMsg name),
          st.2), true) := by
  induction l generalizing st with
  | nil => simp [GKO.adRequired]
  | cons q rest ih =>
    by_cases h : (GKO._get_nested_value doc q).truthy
    · simp [GKO.adRequired, h, ih]
    · simp [GKO.adRequired, h, ih]

theorem adVirtualHosts_warns (name : String) (l : List Yaml) (st : GKO.St) :
    ((GKO.adVirtualHosts name l st).1).2 = st.2 := by
  induction l generalizing st with
  | nil => rfl
  | cons vh rest ih =>
    unfold GKO.adVirtualHosts
    split
    · rfl
    · split
      · split
        · exact ih st
        · exact ih _
      · rfl

theorem adVirtualHosts_err_count (name m : String) (hne : ∀ path, m ≠ GKO.vhMsg name path)
    (l : List Yaml) (st : GKO.St) :
    (((GKO.adVirtualHosts name l st).1).1).count m = st.1.count m := by
  induction l generalizing st with
  | nil => rfl
  | cons vh rest ih =>
    unfold GKO.adVirtualHosts
    split
    · rfl
    · split
      · split
        · exact ih st
        · rw [ih _]
          exact count_append_one st.1 _ m (fun e => hne _ e.symm)
      · rfl

theorem adEndpoints_err_count (name m : String) (hne : m ≠ GKO.etMissingMsg name)
    (l : List Yaml) (st : GKO.St) :
    (((GKO.adEndpoints name l st).1).1).count m = st.1.count m := by
  induction l generalizing st with
  | nil => rfl
  | cons e rest ih =>
    unfold GKO.adEndpoints
    split
    · rfl
    · split
      · rw [ih _]
        exact count_append_one st.1 _ m (fun he => hne he.symm)
      · split
        · split
          · exact ih st
          · exact ih _
        · rfl

theorem adEndpoints_warn_count (name m : String) (hne : ∀ t, m ≠ GKO.etAbsMsg name t)
    (l : List Yaml) (st : GKO.St) :
    (((GKO.adEndpoints name l st).1).2).count m = st.2.count m := by
  induction l generalizing st with
  | nil => rfl
  | cons e rest ih =>
    unfold GKO.adEndpoints
    split
    · rfl
    · split
      · exact ih _
      · split
        · split
          · exact ih st
          · rw [ih _]
            exact count_append_one st.2 _ m (fun he => hne _ he.symm)
        · rfl

theorem adGroups_err_count (name m : String) (hne : m ≠ GKO.etMissingMsg name)
    (l : List Yaml) (st : GKO.St) :
    (((GKO.adGroups name l st).1).1).count m = st.1.count m := by
  induction l generalizing st with
  | nil => rfl
  | cons g rest ih =>
    unfold GKO.adGroups
    cases g with
    | map gk =>
      dsimp only
      split
      · split <;> rfl
      · rw [pseq_err_count m _ _ ih, adEndpoints_err_count name m hne _ _]
        split <;> rfl
    | null => rfl
    | bool b => rfl
    | int n => rfl
    | str s => rfl
    | list xs => rfl

theorem adGroups_warn_count (name m : String) (hne1 : ∀ g, m ≠ GKO.egMsg name g)
    (hne2 : ∀ t, m ≠ GKO.etAbsMsg name t) (l : List Yaml) (st : GKO.St) :
    (((GKO.adGroups name l st).1).2).count m = st.2.count m := by
  induction l generalizing st with
  | nil => rfl
  | cons g rest ih =>
    unfold GKO.adGroups
    cases g with
    | map gk =>
      dsimp only
      split
      · split
        · rfl
        · exact count_append_one st.2 _ m (fun e => hne1 _ e.symm)
      · rw [pseq_warn_count m _ _ ih, adEndpoints_warn_count name m hne2 _ _]
        split
        · rfl
        · exact count_append_one st.2 _ m (fun e => hne1 _ e.symm)
    | null => rfl
    | bool b => rfl
    | int n => rfl
    | str s => rfl
    | list xs => rfl

theorem validate_policy_err_count (apiName fname m : String)
    (hne : ∀ pn fn, m ≠ GKO.polTypeMsg apiName pn fn) (p : Yaml) (st : GKO.St) :
    (((GKO._validate_policy apiName fname p st).1).1).count m = st.1.count m := by
  unfold GKO._validate_policy
  cases p with
  | map pk =>
    dsimp only
    split <;> split <;>
      first
        | rfl
        | exact count_append_one st.1 _ m (fun e => hne _ _ e.symm)
  | null => rfl
  | bool b => rfl
  | int n => rfl
  | str s => rfl
  | list xs => rfl

theorem validate_policy_warn_count (apiName fname m : String)
    (hne : ∀ pn, m ≠ GKO.polCfgMsg apiName pn) (p : Yaml) (st : GKO.St) :
    (((GKO._validate_policy apiName fname p st).1).2).count m = st.2.count m := by
  unfold GKO._validate_policy
  cases p with
  | map pk =>
    dsimp only
    split <;> split <;>
      first
        | rfl
        | exact count_append_one st.2 _ m (fun e => hne _ e.symm)
  | null => rfl
  | bool b => rfl
  | int n => rfl
  | str s => rfl
  | list xs => rfl

theorem adPolicies_err_count (apiName fname m : String)
    (hne : ∀ pn fn, m ≠ GKO.polTypeMsg apiName pn fn) (l : List Yaml) (st : GKO.St) :
    (((GKO.adPolicies apiName fname l st).1).1).count m = st.1.count m := by
  induction l generalizing st with
  | nil => rfl
  | cons p rest ih =>
    unfold GKO.adPolicies
    rw [pseq_err_count m _ _ ih]
    exact validate_policy_err_count apiName fname m hne p st

theorem adPolicies_warn_count (apiName fname m : String)
    (hne : ∀ pn, m ≠ GKO.polCfgMsg apiName pn) (l : List Yaml) (st : GKO.St) :
    (((GKO.adPolicies apiName fname l st).1).2).count m = st.2.count m := by
  induction l generalizing st with
  | nil => rfl
  | cons p rest ih =>
    unfold GKO.adPolicies
    rw [pseq_warn_count m _ _ ih]
    exact validate_policy_warn_count apiName fname m hne p st

theorem validate_flow_err_count (apiName m : String)
    (hne : ∀ pn fn, m ≠ GKO.polTypeMsg apiName pn fn) (f : Yaml) (st : GKO.St) :
    (((GKO._validate_flow apiName f st).1).1).count m = st.1.count m := by
  unfold GKO._validate_flow
  cases f with
  | map fk =>
    dsimp only
    split
    · rfl
    · split
      · split <;> rfl
      · rw [adPolicies_err_count apiName _ m hne _ _]
        split <;> rfl
  | null => rfl
  | bool b => rfl
  | int n => rfl
  | str s => rfl
  | list xs => rfl

theorem validate_flow_warn_count (apiName m : String)
    (hne1 : ∀ fn, m ≠ GKO.flowPathMsg apiName fn) (hne2 : ∀ pn, m ≠ GKO.polCfgMsg apiName pn)
    (f : Yaml) (st : GKO.St) :
    (((GKO._validate_flow apiName f st).1).2).count m = st.2.count m := by
  unfold GKO._validate_flow
  cases f with
  | map fk =>
    dsimp only
    split
    · rfl
    · split
      · split
        · rfl
        · exact count_append_one st.2 _ m (fun e => hne1 _ e.symm)
      · rw [adPolicies_warn_count apiName _ m hne2 _ _]
        split
        · rfl
        · exact count_append_one st.2 _ m (fun e => hne1 _ e.symm)
  | null => rfl
  | bool b => rfl
  | int n => rfl
  | str s => rfl
  | list xs => rfl

theorem adFlowList_err_count (name m : String)
    (hne : ∀ pn fn, m ≠ GKO.polTypeMsg name pn fn) (l : List Yaml) (st : GKO.St) :
    (((GKO.adFlowList name l st).1).1).count m = st.1.count m := by
  induction l generalizing st with
  | nil => rfl
  | cons f rest ih =>
    unfold GKO.adFlowList
    rw [pseq_err_count m _ _ ih]
    exact validate_flow_err_count name m hne f st

theorem adFlowList_warn_count (name m : String)
    (hne1 : ∀ fn, m ≠ GKO.flowPathMsg name fn) (hne2 : ∀ pn, m ≠ GKO.polCfgMsg name pn)
    (l : List Yaml) (st : GKO.St) :
    (((GKO.adFlowList name l st).1).2).count m = st.2.count m := by
  induction l generalizing st with
  | nil => rfl
  | cons f rest ih =>
    unfold GKO.adFlowList
    rw [pseq_warn_count m _ _ ih]
    exact validate_flow_warn_count name m hne1 hne2 f st

theorem adAnalytics_errs (sk : List (String × Yaml)) (name : String) (st : GKO.St) :
    ((GKO.adAnalytics sk name st).1).1 = st.1 := by
  unfold GKO.adAnalytics
  split
  · split
    · split
      · split <;> rfl
      · rfl
    · rfl
  · rfl

theorem adAnalytics_warn_count (sk : List (String × Yaml)) (name m : String)
    (hne : m ≠ GKO.payloadMsg name) (st : GKO.St) :
    (((GKO.adAnalytics sk name st).1).2).count m = st.2.count m := by
  unfold GKO.adAnalytics
  split
  · split
    · split
      · split
        · exact count_append_one st.2 _ m (fun e => hne e.symm)
        · rfl
      · rfl
    · rfl
  · rfl

theorem adVersionStep_errs (sk : List (String × Yaml)) (name : String) (st : GKO.St) :
    ((GKO.adVersionStep sk name st).1).1 = st.1 := by
  unfold GKO.adVersionStep
  split
  · split
    · rfl
    · split <;> rfl
  · split <;> rfl

theorem adVersionStep_warn_count (sk : List (String × Yaml)) (name m : String)
    (hne : ∀ v, m ≠ GKO.verMsg name v) (st : GKO.St) :
    (((GKO.adVersionStep sk name st).1).2).count m = st.2.count m := by
  unfold GKO.adVersionStep
  split
  · split
    · rfl
    · split
      · rfl
      · exact count_append_one st.2 _ m (fun e => hne _ e.symm)
  · split <;> rfl

theorem adDefFlowsPhase_err_count (sk : List (String × Yaml)) (name m : String)
    (hpt : ∀ pn fn, m ≠ GKO.polTypeMsg name pn fn) (st : GKO.St) :
    (((GKO.adDefFlowsPhase sk name st).1).1).count m = st.1.count m := by
  unfold GKO.adDefFlowsPhase
  split
  · rfl
  · rw [pseq_err_count m _ _ (fun s => by rw [adAnalytics_errs])]
    exact adFlowList_err_count name m hpt _ _

theorem adDefFlowsPhase_warn_count (sk : List (String × Yaml)) (name m : String)
    (hfp : ∀ fn, m ≠ GKO.flowPathMsg name fn) (hpc : ∀ pn, m ≠ GKO.polCfgMsg name pn)
    (hpl : m ≠ GKO.payloadMsg name) (st : GKO.St) :
    (((GKO.adDefFlowsPhase sk name st).1).2).count m = st.2.count m := by
  unfold GKO.adDefFlowsPhase
  split
  · rfl
  · rw [pseq_warn_count m _ _ (fun s => adAnalytics_warn_count sk name m hpl s)]
    exact adFlowList_warn_count name m hfp hpc _ _

theorem adDefGroupsPhase_err_count (pk sk : List (String × Yaml)) (name m : String)
    (het : m ≠ GKO.etMissingMsg name) (hpt : ∀ pn fn, m ≠ GKO.polTypeMsg name pn fn)
    (st : GKO.St) :
    (((GKO.adDefGroupsPhase pk sk name st).1).1).count m = st.1.count m := by
  unfold GKO.adDefGroupsPhase
  split
  · rfl
  · rw [pseq_err_count m _ _ (fun s => adDefFlowsPhase_err_count sk name m hpt s)]
    exact adGroups_err_count name m het _ _

theorem adDefGroupsPhase_warn_count (pk sk : List (String × Yaml)) (name m : String)
    (heg : ∀ g, m ≠ GKO.egMsg name g) (hea : ∀ t, m ≠ GKO.etAbsMsg name t)
    (hfp : ∀ fn, m ≠ GKO.flowPathMsg name fn) (hpc : ∀ pn, m ≠ GKO.polCfgMsg name pn)
    (hpl : m ≠ GKO.payloadMsg name) (st : GKO.St) :
    (((GKO.adDefGroupsPhase pk sk name st).1).2).count m = st.2.count m := by
  unfold GKO.adDefGroupsPhase
  split
  · rfl
  · rw [pseq_warn_count m _ _ (fun s => adDefFlowsPhase_warn_count sk name m hfp hpc hpl s)]
    exact adGroups_warn_count name m heg hea _ _

theorem adDefRest2_err_count (sk : List (String × Yaml)) (name m : String)
    (hlc : ∀ v, m ≠ GKO.lcMsg name v) (hvh : ∀ p, m ≠ GKO.vhMsg name p)
    (het : m ≠ GKO.etMissingMsg name) (hpt : ∀ pn fn, m ≠ GKO.polTypeMsg name pn fn)
    (st : GKO.St) :
    (((GKO.adDefRest2 sk name st).1).1).count m = st.1.count m := by
  unfold GKO.adDefRest2
  dsimp only
  have hst3 : ((if ((lookupKV sk "lifecycleState").getD .null).truthy
        && !(GKO.VALID_LIFECYCLE_STATES.any (yEqStr ((lookupKV sk "lifecycleState").getD .null)))
      then (st.1 ++ [GKO.lcMsg name ((lookupKV sk "lifecycleState").getD .null)], st.2)
      else st) : GKO.St).1.count m = st.1.count m := by
    split
    · exact count_append_one st.1 _ m (fun e => hlc _ e.symm)
    · rfl
  split
  · split
    · exact hst3
    · rw [pseq_err_count m _ _ (fun s => adDefGroupsPhase_err_count _ sk name m het hpt s),
        adVirtualHosts_err_count name m hvh _ _]
      exact hst3
  · exact hst3

theorem adDefRest2_warn_count (sk : List (String × Yaml)) (name m : String)
    (heg : ∀ g, m ≠ GKO.egMsg name g) (hea : ∀ t, m ≠ GKO.etAbsMsg name t)
    (hfp : ∀ fn, m ≠ GKO.flowPathMsg name fn) (hpc : ∀ pn, m ≠ GKO.polCfgMsg name pn)
    (hpl : m ≠ GKO.payloadMsg name) (st : GKO.St) :
    (((GKO.adDefRest2 sk name st).1).2).count m = st.2.count m := by
  unfold GKO.adDefRest2
  dsimp only
  have hst3 : ((if ((lookupKV sk "lifecycleState").getD .null).truthy
        && !(GKO.VALID_LIFECYCLE_STATES.any (yEqStr ((lookupKV sk "lifecycleState").getD .null)))
      then (st.1 ++ [GKO.lcMsg name ((lookupKV sk "lifecycleState").getD .null)], st.2)
      else st) : GKO.St).2.count m = st.2.count m := by
    split
    · rfl
    · rfl
  split
  · split
    · exact hst3
    · rw [pseq_warn_count m _ _
          (fun s => adDefGroupsPhase_warn_count _ sk name m heg hea hfp hpc hpl s),
        adVirtualHosts_warns name _ _]
      exact hst3
  · exact hst3

theorem ite_append_err_count (c : Prop) [Decidable c] (base : GKO.St) (x m : String)
    (h : x ≠ m) :
    ((if c then (base.1 ++ [x], base.2) else base) : GKO.St).1.count m = base.1.count m := by
  split
  · exact count_append_one base.1 x m h
  · rfl

theorem ite_append_err_snd (c : Prop) [Decidable c] (base : GKO.St) (x : String) :
    ((if c then (base.1 ++ [x], base.2) else base) : GKO.St).2 = base.2 := by
  split <;> rfl

theorem apPlanRest_err_count (sk : List (String × Yaml)) (name m : String)
    (hsec : ∀ v, m ≠ GKO.secMsg name v) (hstat : ∀ v, m ≠ GKO.statusMsg name v)
    (st : GKO.St) :
    (((GKO.apPlanRest sk name st).1).1).count m = st.1.count m := by
  unfold GKO.apPlanRest
  dsimp only
  split
  · rw [ite_append_err_count _ _ _ m (fun e => hstat _ e.symm),
      ite_append_err_count _ _ _ m (fun e => hsec _ e.symm)]
  · split
    · rw [ite_append_err_count _ _ _ m (fun e => hstat _ e.symm),
        ite_append_err_count _ _ _ m (fun e => hsec _ e.symm)]
    · split
      · rw [ite_append_err_count _ _ _ m (fun e => hstat _ e.symm),
          ite_append_err_count _ _ _ m (fun e => hsec _ e.symm)]
      · rw [ite_append_err_count _ _ _ m (fun e => hstat _ e.symm),
          ite_append_err_count _ _ _ m (fun e => hsec _ e.symm)]

theorem apScanPre_spec (pl : List Yaml) (hwf : pl.all Yaml.isMap = true) :
    GKO.apScanPre pl = Except.ok (pl.any isRLPolicy) := by
  induction pl with
  | nil => rfl
  | cons p rest ih =>
    have hp : p.isMap = true := (List.all_cons .. ▸ hwf |> Bool.and_elim_left)
    have hr : rest.all Yaml.isMap = true := (List.all_cons .. ▸ hwf |> Bool.and_elim_right)
    cases p with
    | map pk =>
      unfold GKO.apScanPre
      by_cases h : (yEqStr ((lookupKV pk "policy").getD .null) "rate-limit"
          || yEqStr ((lookupKV pk "policy").getD .null) "quota")
      · simp [h, isRLPolicy]
      · simp only [h, if_neg, ih hr]
        simp [List.any_cons, isRLPolicy]
        simp only [Bool.or_eq_true] at h
        push_neg at h
        simp [h.1, h.2]
    | null => simp [Yaml.isMap] at hp
    | bool b => simp [Yaml.isMap] at hp
    | int n => simp [Yaml.isMap] at hp
    | str s => simp [Yaml.isMap] at hp
    | list xs => simp [Yaml.isMap] at hp

theorem apFlowsScan_spec (fls : List Yaml) (hwf : planFlowsWF fls = true) (acc : Bool) :
    GKO.apFlowsScan fls acc = Except.ok (acc || hasRLpre fls) := by
  induction fls generalizing acc with
  | nil => simp [GKO.apFlowsScan, hasRLpre]
  | cons f rest ih =>
    cases f with
    | map fk =>
      unfold planFlowsWF at hwf
      rcases hpre : (lookupKV fk "pre").getD (.list []) with _ | b | n | s | pl | kvs
        <;> rw [hpre] at hwf
      case list =>
        have hall : pl.all Yaml.isMap = true := (Bool.and_eq_true .. ▸ hwf).1
        have hrest : planFlowsWF rest = true := (Bool.and_eq_true .. ▸ hwf).2
        unfold GKO.apFlowsScan
        dsimp only
        rw [hpre]
        simp only [pyIterE]
        rw [apScanPre_spec pl hall]
        dsimp only
        rw [ih hrest]
        have : hasRLpre (Yaml.map fk :: rest) = (flowPreRL (.map fk) || hasRLpre rest) := by
          simp [hasRLpre, List.any_cons]
        rw [this]
        have hfp : flowPreRL (.map fk) = pl.any isRLPolicy := by
          simp [flowPreRL, hpre]
        rw [hfp, Bool.or_assoc]
      all_goals simp at hwf
    | null => simp [planFlowsWF] at hwf
    | bool b => simp [planFlowsWF] at hwf
    | int n => simp [planFlowsWF] at hwf
    | str s => simp [planFlowsWF] at hwf
    | list xs => simp [planFlowsWF] at hwf

theorem apPlanRest_warns_spec (sk : List (String × Yaml)) (name : String) (fls : List Yaml)
    (st : GKO.St) (hfl : (lookupKV sk "flows").getD (.list []) = .list fls)
    (hwf : planFlowsWF fls = true) :
    (GKO.apPlanRest sk name st).1.2
      = st.2 ++ (if !(hasRLpre fls)
          && !(yEqStr ((lookupKV sk "security").getD .null) "KEY_LESS")
        then [GKO.rlMsg name] else [])
    ∧ (GKO.apPlanRest sk name st).2 = true := by
  unfold GKO.apPlanRest
  dsimp only
  rw [hfl]
  simp only [pyIterE]
  rw [apFlowsScan_spec fls hwf false]
  dsimp only
  have hsnd : ((if ((lookupKV sk "status").getD .null).truthy
        && !(GKO.VALID_PLAN_STATUSES.any (yEqStr ((lookupKV sk "status").getD .null)))
      then
        (((if ((lookupKV sk "security").getD .null).truthy
            && !(GKO.VALID_SECURITY_TYPES.any (yEqStr ((lookupKV sk "security").getD .null)))
          then (st.1 ++ [GKO.secMsg name ((lookupKV sk "security").getD .null)], st.2)
          else st) : GKO.St).1
            ++ [GKO.statusMsg name ((lookupKV sk "status").getD .null)],
          ((if ((lookupKV sk "security").getD .null).truthy
            && !(GKO.VALID_SECURITY_TYPES.any (yEqStr ((lookupKV sk "security").getD .null)))
          then (st.1 ++ [GKO.secMsg name ((lookupKV sk "security").getD .null)], st.2)
          else st) : GKO.St).2)
      else
        (if ((lookupKV sk "security").getD .null).truthy
            && !(GKO.VALID_SECURITY_TYPES.any (yEqStr ((lookupKV sk "security").getD .null)))
          then (st.1 ++ [GKO.secMsg name ((lookupKV sk "security").getD .null)], st.2)
          else st)) : GKO.St).2 = st.2 := by
    split
    · split <;> rfl
    · split <;> rfl
  rw [Bool.false_or]
  split
  · refine ⟨?_, rfl⟩
    simp only [hsnd]
  · refine ⟨?_, rfl⟩
    simp only [hsnd]
    simp

theorem dispatch_apidef (dk : List (String × Yaml)) (fp : String) (st : GKO.St) (s : String)
    (mk : List (String × Yaml))
    (hav : (lookupKV dk "apiVersion").getD (.str "") = .str s)
    (hs : strStartsWith s "gravitee.io/" = true)
    (hmk : (lookupKV dk "metadata").getD (.map []) = .map mk)
    (hkind : (lookupKV dk "kind").getD (.str "") = .str "ApiDefinition") :
    GKO._validate_document (.map dk) fp st
      = GKO._validate_api_definition (.map dk) (GKO.docName (.map dk)) st := by
  unfold GKO._validate_document
  dsimp only
  rw [hav, hkind]
  simp [hs, hmk, yEqStr, GKO.docName]

theorem dispatch_apiplan (dk : List (String × Yaml)) (fp : String) (st : GKO.St) (s : String)
    (mk : List (String × Yaml))
    (hav : (lookupKV dk "apiVersion").getD (.str "") = .str s)
    (hs : strStartsWith s "gravitee.io/" = true)
    (hmk : (lookupKV dk "metadata").getD (.map []) = .map mk)
    (hkind : (lookupKV dk "kind").getD (.str "") = .str "ApiPlan") :
    GKO._validate_document (.map dk) fp st
      = GKO._validate_api_plan (.map dk) (GKO.docName (.map dk)) st := by
  unfold GKO._validate_document
  dsimp only
  rw [hav, hkind]
  simp [hs, hmk, yEqStr, GKO.docName]

theorem pseq_ok {σ : Type} (s : σ) (f : σ → σ × Bool) : pseq (s, true) f = f s := by
  simp [pseq]

theorem apidef_err_count (dk : List (String × Yaml)) (name m : String)
    (hlc : ∀ v, m ≠ GKO.lcMsg name v) (hvh : ∀ p, m ≠ GKO.vhMsg name p)
    (het : m ≠ GKO.etMissingMsg name) (hpt : ∀ pn fn, m ≠ GKO.polTypeMsg name pn fn)
    (st : GKO.St) :
    (((GKO._validate_api_definition (.map dk) name st).1).1).count m
      = (st.1 ++ ((GKO.REQUIRED_API_DEFINITION_FIELDS.filter
          fun q => !(GKO._get_nested_value (.map dk) q).truthy).map (GKO.reqMsg name))).count m
      := by
  unfold GKO._validate_api_definition
  dsimp only
  rw [adRequired_spec, pseq_ok]
  split
  · rw [pseq_err_count m _ _ (fun s => adDefRest2_err_count _ name m hlc hvh het hpt s),
      adVersionStep_errs]
  · rfl

theorem apiplan_err_count (dk : List (String × Yaml)) (name m : String)
    (hsec : ∀ v, m ≠ GKO.secMsg name v) (hstat : ∀ v, m ≠ GKO.statusMsg name v)
    (st : GKO.St) :
    (((GKO._validate_api_plan (.map dk) name st).1).1).count m
      = (st.1 ++ ((GKO.REQUIRED_API_PLAN_FIELDS.filter
          fun q => !(GKO._get_nested_value (.map dk) q).truthy).map (GKO.reqMsg name))).count m
      := by
  unfold GKO._validate_api_plan
  dsimp only
  rw [adRequired_spec, pseq_ok]
  split
  · exact apPlanRest_err_count _ name m hsec hstat _
  · rfl

theorem absentOrEmpty_not_truthy {v : Yaml} (h : GKO.absentOrEmpty v) : v.truthy = false := by
  rcases h with h | h | h | h <;> subst h <;> rfl

theorem count_filter_map_reqMsg (name p : String) (l : List String) (pred : String → Bool)
    (hl : l.Nodup) (hp : p ∈ l) (hpred : pred p = true) :
    ((l.filter pred).map (GKO.reqMsg name)).count (GKO.reqMsg name p) = 1 := by
  rw [List.count_map_of_injective _ (GKO.reqMsg name) (fun a b h => reqMsg_inj h)]
  exact List.count_eq_one_of_mem (hl.filter pred) (List.mem_filter.2 ⟨hp, hpred⟩)

/-- C1: for a `gravitee.io/` document of kind `ApiDefinition` or `ApiPlan`,
every required dotted path that resolves to an absent or empty value adds
exactly one error finding naming that path, and a run with at least one
error finding exits with status `1`. -/
theorem c1_required_field_errors :
    (∀ (dk : List (String × Yaml)) (fp p : String) (st : GKO.St),
        GKO.apiVersionPrefixed (.map dk) = true →
        GKO.metadataOk (.map dk) = true →
        (GKO.kindOf (.map dk) = .str "ApiDefinition" ∧ p ∈ GKO.REQUIRED_API_DEFINITION_FIELDS
          ∨ GKO.kindOf (.map dk) = .str "ApiPlan" ∧ p ∈ GKO.REQUIRED_API_PLAN_FIELDS) →
        GKO.absentOrEmpty (GKO._get_nested_value (.map dk) p) →
        (((GKO._validate_document (.map dk) fp st).1).1).count
            (GKO.reqMsg (GKO.docName (.map dk)) p)
          = st.1.count (GKO.reqMsg (GKO.docName (.map dk)) p) + 1)
    ∧ ∀ files, GKO.gkoErrors files ≠ [] → GKO.gkoExitCode files = 1 := by
  constructor
  · intro dk fp p st hav hmeta hkind habs
    simp only [GKO.apiVersionPrefixed] at hav
    rcases h1 : (lookupKV dk "apiVersion").getD (.str "") with _ | b | n | s | xs | kvs
      <;> rw [h1] at hav
    · exact Bool.noConfusion hav
    · exact Bool.noConfusion hav
    · exact Bool.noConfusion hav
    · have hs : strStartsWith s "gravitee.io/" = true := hav
      simp only [GKO.metadataOk] at hmeta
      rcases h2 : (lookupKV dk "metadata").getD (.map []) with _ | b2 | n2 | s2 | xs2 | mk
        <;> rw [h2] at hmeta
      · exact Bool.noConfusion hmeta
      · exact Bool.noConfusion hmeta
      · exact Bool.noConfusion hmeta
      · exact Bool.noConfusion hmeta
      · exact Bool.noConfusion hmeta
      · have hk : GKO.kindOf (.map dk) = (lookupKV dk "kind").getD (.str "") := rfl
        have hfilter : (!(GKO._get_nested_value (.map dk) p).truthy) = true := by
          rw [absentOrEmpty_not_truthy habs]
          rfl
        rcases hkind with ⟨hkd, hp⟩ | ⟨hkd, hp⟩
        · rw [dispatch_apidef dk fp st s mk h1 hs h2 (hk.symm.trans hkd)]
          rw [apidef_err_count dk (GKO.docName (.map dk)) _
            (fun v => reqMsg_ne_lcMsg _ p v) (fun q => reqMsg_ne_vhMsg _ p q)
            (reqMsg_ne_etMissingMsg _ p) (fun pn fn => reqMsg_ne_polTypeMsg _ p pn fn) st]
          rw [List.count_append]
          rw [count_filter_map_reqMsg _ p _ _ (by decide) hp hfilter]
        · rw [dispatch_apiplan dk fp st s mk h1 hs h2 (hk.symm.trans hkd)]
          rw [apiplan_err_count dk (GKO.docName (.map dk)) _
            (fun v => reqMsg_ne_secMsg _ p v) (fun v => reqMsg_ne_statusMsg _ p v) st]
          rw [List.count_append]
          rw [count_filter_map_reqMsg _ p _ _ (by decide) hp hfilter]
    · exact Bool.noConfusion hav
    · exact Bool.noConfusion hav
  · intro files hne
    unfold GKO.gkoExitCode
    unfold GKO.gkoErrors at hne
    by_cases h2 : (GKO.runFiles files ([], [])).2
    · have h3 : ¬(GKO.runFiles files ([], [])).1.1.isEmpty = true := by
        simpa [List.isEmpty_iff] using hne
      simp [h2, h3]
    · simp [h2]

/-- Witness for C1 at a concrete `ApiDefinition` missing `spec.version`. -/
theorem c1_witness :
    GKO.absentOrEmpty (GKO._get_nested_value missingVersionDoc "spec.version")
    ∧ (((GKO._validate_document missingVersionDoc "w.yaml" ([], [])).1).1).count
        (GKO.reqMsg (GKO.docName missingVersionDoc) "spec.version")
      = (([] : List String).count
          (GKO.reqMsg (GKO.docName missingVersionDoc) "spec.version")) + 1
    ∧ GKO.gkoExitCode [("w.yaml", Except.ok [missingVersionDoc])] = 1 := by
  have hnul : GKO._get_nested_value missingVersionDoc "spec.version" = Yaml.null := by
    have hsplit : strSplitDot "spec.version" = ["spec", "version"] := by decide
    unfold GKO._get_nested_value
    rw [hsplit]
    simp [GKO.getNestedKeys, lookupKV, missingVersionDoc]
  have hkind : GKO.kindOf missingVersionDoc = Yaml.str "ApiDefinition" := by
    simp [GKO.kindOf, missingVersionDoc, lookupKV]
  refine ⟨Or.inl hnul, ?_, ?_⟩
  · exact c1_required_field_errors.1 _ "w.yaml" "spec.version" ([], []) (by decide) (by decide)
      (Or.inl ⟨hkind, by decide⟩) (Or.inl hnul)
  · exact c1_required_field_errors.2 _ (by decide)

theorem count_append_self (l : List String) (m : String) :
    (l ++ [m]).count m = l.count m + 1 := by
  simp [List.count_append]

theorem adVersionStep_spec (sk : List (String × Yaml)) (name v : String) (st : GKO.St)
    (hv : (lookupKV sk "version").getD (.str "") = .str v) (hvne : v ≠ "")
    (hsem : GKO.semverMatch v = false) :
    GKO.adVersionStep sk name st = ((st.1, st.2 ++ [GKO.verMsg name v]), true) := by
  unfold GKO.adVersionStep
  rw [hv]
  have he : v.isEmpty = false := by
    cases hvv : v.isEmpty
    · rfl
    · exact absurd ((String.isEmpty_iff v).1 hvv) hvne
  simp [he, hsem]

/-- C6: an `ApiDefinition` whose `spec.version` is a non-empty string that
is not three dotted integers gets exactly one warning finding about the
version format; the version check itself never records an error; and a
completed run whose error list is empty exits with status `0`. -/
theorem c6_version_format_warning :
    (∀ (dk : List (String × Yaml)) (fp v : String) (st : GKO.St)
        (sk : List (String × Yaml)),
        GKO.apiVersionPrefixed (.map dk) = true →
        GKO.metadataOk (.map dk) = true →
        GKO.kindOf (.map dk) = .str "ApiDefinition" →
        (lookupKV dk "spec").getD (.map []) = .map sk →
        (lookupKV sk "version").getD (.str "") = .str v →
        v ≠ "" →
        GKO.semverMatch v = false →
        (((GKO._validate_document (.map dk) fp st).1).2).count
            (GKO.verMsg (GKO.docName (.map dk)) v)
          = st.2.count (GKO.verMsg (GKO.docName (.map dk)) v) + 1)
    ∧ (∀ (sk : List (String × Yaml)) (name : String) (st : GKO.St),
        ((GKO.adVersionStep sk name st).1).1 = st.1)
    ∧ (∀ files st, GKO.runFiles files ([], []) = (st, true) → st.1 = [] →
        GKO.gkoExitCode files = 0) := by
  refine ⟨?_, adVersionStep_errs, ?_⟩
  · intro dk fp v st sk hav hmeta hkd hsp hv hvne hsem
    simp only [GKO.apiVersionPrefixed] at hav
    rcases h1 : (lookupKV dk "apiVersion").getD (.str "") with _ | b | n | s | xs | kvs
      <;> rw [h1] at hav
    · exact Bool.noConfusion hav
    · exact Bool.noConfusion hav
    · exact Bool.noConfusion hav
    · have hs : strStartsWith s "gravitee.io/" = true := hav
      simp only [GKO.metadataOk] at hmeta
      rcases h2 : (lookupKV dk "metadata").getD (.map []) with _ | b2 | n2 | s2 | xs2 | mk
        <;> rw [h2] at hmeta
      · exact Bool.noConfusion hmeta
      · exact Bool.noConfusion hmeta
      · exact Bool.noConfusion hmeta
      · exact Bool.noConfusion hmeta
      · exact Bool.noConfusion hmeta
      · have hk : GKO.kindOf (.map dk) = (lookupKV dk "kind").getD (.str "") := rfl
        rw [dispatch_apidef dk fp st s mk h1 hs h2 (hk.symm.trans hkd)]
        unfold GKO._validate_api_definition
        dsimp only
        rw [adRequired_spec, pseq_ok, hsp]
        dsimp only
        rw [adVersionStep_spec sk (GKO.docName (.map dk)) v _ hv hvne hsem, pseq_ok]
        rw [adDefRest2_warn_count sk (GKO.docName (.map dk)) _
          (fun g => verMsg_ne_egMsg _ v g) (fun t => verMsg_ne_etAbsMsg _ v t)
          (fun fn => verMsg_ne_flowPathMsg _ v fn) (fun pn => verMsg_ne_polCfgMsg _ v pn)
          (verMsg_ne_payloadMsg _ v) _]
        exact count_append_self st.2 _
    · exact Bool.noConfusion hav
    · exact Bool.noConfusion hav
  · intro files st h he
    unfold GKO.gkoExitCode
    rw [h]
    simp [he]

/-- Witness for C6 at a concrete `ApiDefinition` with version `1.2`. -/
theorem c6_witness :
    ("1.2" : String) ≠ "" ∧ GKO.semverMatch "1.2" = false
    ∧ (((GKO._validate_document badVersionDoc "w2.yaml" ([], [])).1).2).count
        (GKO.verMsg (GKO.docName badVersionDoc) "1.2")
      = (([] : List String).count (GKO.verMsg (GKO.docName badVersionDoc) "1.2")) + 1
    ∧ GKO.gkoExitCode [("w2.yaml", Except.ok [badVersionDoc])] = 0 := by
  refine ⟨by decide, by decide, ?_, ?_⟩
  · exact c6_version_format_warning.1 badVersionFields "w2.yaml" "1.2" ([], []) badVersionSpec
      (by decide) (by decide)
      (by simp [GKO.kindOf, badVersionFields, lookupKV])
      (by simp [badVersionFields, lookupKV])
      (by simp [badVersionSpec, lookupKV])
      (by decide) (by decide)
  · exact c6_version_format_warning.2.2 [("w2.yaml", Except.ok [badVersionDoc])]
      ([], [GKO.verMsg "demo2" "1.2"]) (by decide) (by decide)

/-- C4 (amended): for an `ApiPlan` with well-formed flows, the "no rate
limiting or quota policy" warning is emitted exactly when no
rate-limit/quota policy appears in the flows' `pre` lists and
`spec.security` is not `KEY_LESS`. -/
theorem c4_plan_rate_limit_warning :
    ∀ (dk : List (String × Yaml)) (fp : String) (st : GKO.St)
      (sk : List (String × Yaml)) (fls : List Yaml),
      GKO.apiVersionPrefixed (.map dk) = true →
      GKO.metadataOk (.map dk) = true →
      GKO.kindOf (.map dk) = .str "ApiPlan" →
      (lookupKV dk "spec").getD (.map []) = .map sk →
      (lookupKV sk "flows").getD (.list []) = .list fls →
      planFlowsWF fls = true →
      ((GKO._validate_document (.map dk) fp st).1).2
        = st.2 ++ (if !(hasRLpre fls)
            && !(yEqStr ((lookupKV sk "security").getD .null) "KEY_LESS")
          then [GKO.rlMsg (GKO.docName (.map dk))] else []) := by
  intro dk fp st sk fls hav hmeta hkd hsp hfl hwf
  simp only [GKO.apiVersionPrefixed] at hav
  rcases h1 : (lookupKV dk "apiVersion").getD (.str "") with _ | b | n | s | xs | kvs
    <;> rw [h1] at hav
  · exact Bool.noConfusion hav
  · exact Bool.noConfusion hav
  · exact Bool.noConfusion hav
  · have hs : strStartsWith s "gravitee.io/" = true := hav
    simp only [GKO.metadataOk] at hmeta
    rcases h2 : (lookupKV dk "metadata").getD (.map []) with _ | b2 | n2 | s2 | xs2 | mk
      <;> rw [h2] at hmeta
    · exact Bool.noConfusion hmeta
    · exact Bool.noConfusion hmeta
    · exact Bool.noConfusion hmeta
    · exact Bool.noConfusion hmeta
    · exact Bool.noConfusion hmeta
    · have hk : GKO.kindOf (.map dk) = (lookupKV dk "kind").getD (.str "") := rfl
      rw [dispatch_apiplan dk fp st s mk h1 hs h2 (hk.symm.trans hkd)]
      unfold GKO._validate_api_plan
      dsimp only
      rw [adRequired_spec, pseq_ok, hsp]
      dsimp only
      exact (apPlanRest_warns_spec sk (GKO.docName (.map dk)) fls _ hfl hwf).1
  · exact Bool.noConfusion hav
  · exact Bool.noConfusion hav

/-- Counterexample to C4 as stated: this plan declares a `quota` policy in
a flow's `post` list — so it has a rate-limiting/quota policy in its flows
— yet the warning is still emitted, because the scan only reads `pre`. -/
theorem c4_counterexample :
    hasRLanywhere postOnlyPlanFlows = true
    ∧ ((GKO._validate_document postOnlyPlanDoc "f.yaml" ([], [])).1).2
        = [GKO.rlMsg "p1"] :=
  ⟨by decide, by decide⟩

/-- Witness for the amended C4 at the `post`-only plan. -/
theorem c4_witness :
    planFlowsWF postOnlyPlanFlows = true
    ∧ ((GKO._validate_document postOnlyPlanDoc "f.yaml" ([], [])).1).2
      = [] ++ (if !(hasRLpre postOnlyPlanFlows)
          && !(yEqStr ((lookupKV postOnlyPlanSpec "security").getD .null) "KEY_LESS")
        then [GKO.rlMsg (GKO.docName postOnlyPlanDoc)] else []) := by
  refine ⟨by decide, ?_⟩
  exact c4_plan_rate_limit_warning postOnlyPlanFields "f.yaml" ([], []) postOnlyPlanSpec
    postOnlyPlanFlows (by decide) (by decide)
    (by simp [GKO.kindOf, postOnlyPlanFields, lookupKV])
    (by simp [postOnlyPlanFields, lookupKV])
    (by simp [postOnlyPlanSpec, lookupKV])
    (by decide)

theorem sev_append (is : Policies.PSt) (x : Policies.Issue)
    (h : ∀ i ∈ is, Policies.sevAdvisory i) (hx : Policies.sevAdvisory x) :
    ∀ i ∈ is ++ [x], Policies.sevAdvisory i := by
  intro i hi
  rcases List.mem_append.1 hi with hi | hi
  · exact h i hi
  · rw [List.mem_singleton.1 hi]
    exact hx

theorem sev_ite (c : Prop) [Decidable c] (is : Policies.PSt) (x : Policies.Issue)
    (h : ∀ i ∈ is, Policies.sevAdvisory i) (hx : Policies.sevAdvisory x) :
    ∀ i ∈ (if c then is ++ [x] else is), Policies.sevAdvisory i := by
  split
  · exact sev_append is x h hx
  · exact h

theorem pseq_sev (r : Policies.PSt × Bool) (f : Policies.PSt → Policies.PSt × Bool)
    (hr : ∀ i ∈ r.1, Policies.sevAdvisory i)
    (hf : ∀ is, (∀ i ∈ is, Policies.sevAdvisory i) →
      ∀ i ∈ (f is).1, Policies.sevAdvisory i) :
    ∀ i ∈ (pseq r f).1, Policies.sevAdvisory i := by
  unfold pseq
  split
  · exact hf r.1 hr
  · exact hr

theorem vrl_sev (policy : Yaml) (api fp : String) (is : Policies.PSt)
    (h : ∀ i ∈ is, Policies.sevAdvisory i) :
    ∀ i ∈ (Policies._validate_rate_limit policy api fp is).1, Policies.sevAdvisory i := by
  unfold Policies._validate_rate_limit
  cases policy with
  | map pk =>
    dsimp only
    split
    · split
      · split
        · split
          · exact h
          · dsimp only
            exact sev_ite _ _ _ h (Or.inl rfl)
        · split
          · split
            · exact h
            · dsimp only
              exact sev_ite _ _ _ h (Or.inr rfl)
          · exact h
      · exact h
    · exact h
  | null => exact h
  | bool b => exact h
  | int n => exact h
  | str s => exact h
  | list xs => exact h

theorem rateLimitLoop_sev (api fp : String) (l : List Yaml) (is : Policies.PSt)
    (h : ∀ i ∈ is, Policies.sevAdvisory i) :
    ∀ i ∈ (Policies.rateLimitLoop api fp l is).1, Policies.sevAdvisory i := by
  induction l generalizing is with
  | nil => exact h
  | cons p rest ih =>
    unfold Policies.rateLimitLoop
    cases p with
    | map pk =>
      dsimp only
      split
      · exact pseq_sev _ _ (vrl_sev _ api fp is h) fun is2 h2 => ih is2 h2
      · exact ih is h
    | null => exact h
    | bool b => exact h
    | int n => exact h
    | str s => exact h
    | list xs => exact h

theorem cbEndpoints_sev (pt : List Yaml) (api fp : String) (l : List Yaml)
    (is : Policies.PSt) (h : ∀ i ∈ is, Policies.sevAdvisory i) :
    ∀ i ∈ (Policies.cbEndpoints pt api fp l is).1, Policies.sevAdvisory i := by
  induction l generalizing is with
  | nil => exact h
  | cons e rest ih =>
    unfold Policies.cbEndpoints
    split
    · split
      · exact ih _ (sev_ite _ _ _ h (Or.inr rfl))
      · exact h
    · exact h

theorem cbGroups_sev (pt : List Yaml) (api fp : String) (l : List Yaml)
    (is : Policies.PSt) (h : ∀ i ∈ is, Policies.sevAdvisory i) :
    ∀ i ∈ (Policies.cbGroups pt api fp l is).1, Policies.sevAdvisory i := by
  induction l generalizing is with
  | nil => exact h
  | cons g rest ih =>
    unfold Policies.cbGroups
    split
    · split
      · exact h
      · exact pseq_sev _ _ (cbEndpoints_sev pt api fp _ is h) fun is2 h2 => ih is2 h2
    · exact h

theorem cbPhase_sev (sk : List (String × Yaml)) (pt : List Yaml) (api fp : String)
    (is : Policies.PSt) (h : ∀ i ∈ is, Policies.sevAdvisory i) :
    ∀ i ∈ (Policies.cbPhase sk pt api fp is).1, Policies.sevAdvisory i := by
  unfold Policies.cbPhase
  split
  · split
    · exact h
    · exact cbGroups_sev pt api fp _ is h
  · exact h

theorem logPhase_sev (sk : List (String × Yaml)) (api fp : String) (is : Policies.PSt)
    (h : ∀ i ∈ is, Policies.sevAdvisory i) :
    ∀ i ∈ (Policies.logPhase sk api fp is).1, Policies.sevAdvisory i := by
  unfold Policies.logPhase
  split
  · split
    · split
      · dsimp only
        split
        · exact sev_append is _ h (Or.inl rfl)
        · exact h
      · exact h
    · exact h
  · exact h

theorem pol_vad_sev (doc : Yaml) (fp : String) (is : Policies.PSt)
    (h : ∀ i ∈ is, Policies.sevAdvisory i) :
    ∀ i ∈ (Policies._validate_api_definition doc fp is).1, Policies.sevAdvisory i := by
  unfold Policies._validate_api_definition
  cases doc with
  | map dk =>
    dsimp only
    split
    · split
      · split
        · exact h
        · split
          · exact h
          · split
            · exact h
            · refine pseq_sev _ _
                (rateLimitLoop_sev _ _ _ _ (sev_ite _ _ _ h (Or.inl rfl))) ?_
              intro is2 h2
              dsimp only
              split
              · exact h2
              · refine pseq_sev _ _
                  (logPhase_sev _ _ _ _ (sev_ite _ _ _ h2 (Or.inr rfl))) ?_
                intro is4 h4
                exact cbPhase_sev _ _ _ _ _ h4
      · exact h
    · exact h
  | null => exact h
  | bool b => exact h
  | int n => exact h
  | str s => exact h
  | list xs => exact h

theorem polDocsLoop_sev (fp : String) (docs : List Yaml) (is : Policies.PSt)
    (h : ∀ i ∈ is, Policies.sevAdvisory i) :
    ∀ i ∈ (Policies.polDocsLoop fp docs is).1, Policies.sevAdvisory i := by
  induction docs generalizing is with
  | nil => exact h
  | cons d rest ih =>
    unfold Policies.polDocsLoop
    split
    · split
      · split
        · exact pseq_sev _ _ (pol_vad_sev _ fp is h) fun is2 h2 => ih is2 h2
        · exact ih is h
      · exact h
    · exact ih is h

theorem polRunFiles_sev (files : List (String × Except Unit (List Yaml)))
    (is : Policies.PSt) (h : ∀ i ∈ is, Policies.sevAdvisory i) :
    ∀ i ∈ (Policies.polRunFiles files is).1, Policies.sevAdvisory i := by
  induction files generalizing is with
  | nil => exact h
  | cons f rest ih =>
    rcases f with ⟨fp, d⟩
    unfold Policies.polRunFiles
    refine pseq_sev _ _ ?_ fun is2 h2 => ih is2 h2
    unfold Policies.validate_file
    split
    · exact h
    · exact polDocsLoop_sev fp _ is h

/-- C10 (amended): every issue the policy validator records is advisory
(severity `warning` or `info`), so the error partition is always empty,
and any run that completes without an uncaught type error exits `0`.
(As stated the claim fails: a document that is a non-empty list raises
`AttributeError` and the process exits `1`.) -/
theorem c10_policy_validator_advisory_only :
    ∀ files,
      (∀ i ∈ (Policies.polRunFiles files []).1,
        i.severity = "warning" ∨ i.severity = "info")
      ∧ Policies.polErrorPartition files = []
      ∧ ((Policies.polRunFiles files []).2 = true → Policies.polExitCode files = 0) := by
  intro files
  have hinv := polRunFiles_sev files [] (by intro i hi; cases hi)
  have hfilter : ((Policies.polRunFiles files []).1.filter
      fun i => i.severity == "error") = [] := by
    rw [List.filter_eq_nil_iff]
    intro i hi
    rcases hinv i hi with h | h <;> simp [h]
  refine ⟨hinv, hfilter, ?_⟩
  intro hc
  unfold Policies.polExitCode
  simp [hc, hfilter]

/-- Counterexample to C10 as stated: a YAML document that decodes to a
non-empty list makes `validate_file` call `.get` on a list and raise
`AttributeError`, so the process exits `1` for this directory content even
though the error partition is empty. -/
theorem c10_counterexample :
    Policies.polErrorPartition polCrashFiles = []
    ∧ Policies.polExitCode polCrashFiles = 1 :=
  ⟨by decide, by decide⟩

/-- Witness for C10 at a concrete one-file input. -/
theorem c10_witness :
    Policies.polErrorPartition [("a.yaml", Except.ok [])] = []
    ∧ Policies.polExitCode [("a.yaml", Except.ok [])] = 0 :=
  ⟨(c10_policy_validator_advisory_only [("a.yaml", Except.ok [])]).2.1,
   (c10_policy_validator_advisory_only [("a.yaml", Except.ok [])]).2.2 (by decide)⟩
